import Mathlib

/-!
Shallow embedding of the a-share-short-decision pipeline
(`src/tools/market_data.py`, `src/tools/money_flow.py`,
`src/tools/fusion_engine.py`) and proofs about its specification.

Modelling conventions:
* Python floats are modelled as exact rationals `ℚ`; `round(x, n)` is
  modelled as decimal round-half-to-even (`pyRound`), `int(x)` as
  truncation toward zero (`pyInt`).
* Upstream `akshare` calls return loosely typed rows.  A row is an
  association list from field names to `JVal` values; an upstream call is
  an `Option (List Row)` where `none` models a raised exception and
  `some rs` a frame whose records are `rs` (an empty frame gives `some []`,
  matching `_to_records`).  The whole upstream world is a `MarketOracle`.
* The `ak is None or pd is None` runtime check is the boolean `rt`
  parameter (`rt = false` means the runtime is absent).
* The debug flag only attaches a `debug_info` entry and never changes any
  computed field (`with_debug`), so it is not modelled.
* `indicators.py` and `risk_control.py` are imported by the source but are
  not part of the repository snapshot; `clamp`, `trend_up` and
  `volume_ratio` are modelled from the spec below, and the risk gate's
  `market_filter` verdict is passed to the fusion engine as an opaque
  boolean input, per the spec's black-box contract.
-/

/-- Truncation toward zero, modelling Python `int()` applied to a float. -/
def pyInt (q : ℚ) : ℤ := if 0 ≤ q then ⌊q⌋ else -⌊-q⌋

/-- Round-half-to-even to an integer, modelling Python `round()`. -/
def roundHalfEven (x : ℚ) : ℤ :=
  if x - ⌊x⌋ < 1 / 2 then ⌊x⌋
  else if 1 / 2 < x - ⌊x⌋ then ⌊x⌋ + 1
  else if ⌊x⌋ % 2 = 0 then ⌊x⌋ else ⌊x⌋ + 1

/-- Decimal rounding to `n` places, modelling Python `round(x, n)`. -/
def pyRound (x : ℚ) (n : ℕ) : ℚ := (roundHalfEven (x * 10 ^ n) : ℚ) / 10 ^ n

/-- Modelled from the spec: `clamp` from the repository's `indicators.py`
(imported by the source but missing from `src/`): clamp `value` into the
closed interval between `lo` and `hi` (spec §4.2-§4.6 use
`clamp(expr, lo, hi)` with `lo ≤ hi` throughout). -/
def clamp (value lo hi : ℚ) : ℚ := max lo (min value hi)

/-- Loosely typed field value of an upstream row: Python `None`, `int`,
`float` (finite values, represented exactly) or `str`. -/
inductive JVal where
  | null : JVal
  | intv : ℤ → JVal
  | floatv : ℚ → JVal
  | strv : String → JVal
deriving DecidableEq

/-- An upstream record, as produced by `DataFrame.to_dict(orient="records")`:
an association list from field names to values (keys are unique in a dict;
lookup takes the first match). -/
def Row : Type := List (String × JVal)

instance : DecidableEq Row := by unfold Row; infer_instance

/-- Models `key in row` plus `row[key]`: the value of `key` when present. -/
def rowFind? (row : Row) (key : String) : Option JVal :=
  (List.find? (fun kv => kv.1 == key) row).map (fun kv => kv.2)

/-- Structural last element of a list (Python `l[-1]`, as an option). -/
def last? {α : Type} : List α → Option α
  | [] => none
  | [a] => some a
  | _ :: b :: rest => last? (b :: rest)

/-- Whether a character list ends with the character `c`. -/
def endsWithChar (cs : List Char) (c : Char) : Bool :=
  match last? cs with
  | some d => d == c
  | none => false

/-- Model of Python `str.strip()`: drop surrounding whitespace. -/
def stripChars (cs : List Char) : List Char :=
  ((cs.dropWhile Char.isWhitespace).reverse.dropWhile Char.isWhitespace).reverse

/-- Model of Python `str.strip()` returning a string. -/
def pyStrip (s : String) : String := String.mk (stripChars s.toList)

/-- Result of Python `float(text)` on a string: a parse error (raises),
a non-finite value (`inf`/`nan`), or a finite value. -/
inductive PyParse where
  | err : PyParse
  | nonfin : PyParse
  | fin : ℚ → PyParse
deriving DecidableEq

/-- Consume a maximal leading run of decimal digits. -/
def readDigits : List Char → List ℕ × List Char
  | [] => ([], [])
  | c :: cs =>
    if c.isDigit then
      let (ds, rest) := readDigits cs
      ((c.toNat - '0'.toNat) :: ds, rest)
    else ([], c :: cs)

/-- Value of a digit list read in base 10. -/
def digitsVal (ds : List ℕ) : ℕ := ds.foldl (fun a d => a * 10 + d) 0

/-- Parse an optional exponent suffix `([eE][+-]?digits)?` and apply it. -/
def parseExp (v : ℚ) : List Char → PyParse
  | [] => PyParse.fin v
  | c :: rest =>
    if c = 'e' ∨ c = 'E' then
      let signed : Bool × List Char :=
        match rest with
        | '+' :: r => (true, r)
        | '-' :: r => (false, r)
        | r => (true, r)
      let (ds, rest3) := readDigits signed.2
      if ds.isEmpty ∨ ¬ rest3.isEmpty then PyParse.err
      else if signed.1 then PyParse.fin (v * 10 ^ digitsVal ds)
      else PyParse.fin (v / 10 ^ digitsVal ds)
    else PyParse.err

/-- Parse an unsigned Python float literal: `inf`/`infinity`/`nan`
(case-insensitive) or `digits [. digits] [exponent]` with at least one
mantissa digit. -/
def parseUnsigned (cs : List Char) : PyParse :=
  let low := cs.map Char.toLower
  if low = "inf".toList ∨ low = "infinity".toList ∨ low = "nan".toList then PyParse.nonfin
  else
    let (ip, rest) := readDigits cs
    match rest with
    | '.' :: rest2 =>
      let (fp, rest3) := readDigits rest2
      if ip.isEmpty ∧ fp.isEmpty then PyParse.err
      else parseExp ((digitsVal ip : ℚ) + (digitsVal fp : ℚ) / 10 ^ fp.length) rest3
    | r =>
      if ip.isEmpty then PyParse.err
      else parseExp (digitsVal ip : ℚ) r

/-- Negate a parse result (for a leading sign). -/
def pyNegParse : PyParse → PyParse
  | PyParse.fin q => PyParse.fin (-q)
  | p => p

/-- Model of CPython `float(s)` on decimal literals: optional surrounding
whitespace, optional sign, then an unsigned float literal. -/
def pyFloat (s : String) : PyParse :=
  match stripChars s.toList with
  | '-' :: rest => pyNegParse (parseUnsigned rest)
  | '+' :: rest => parseUnsigned rest
  | cs => parseUnsigned cs

/-- Model of Python `str(value)` for the values representable here. -/
def pyStr : JVal → String
  | JVal.null => "None"
  | JVal.intv z => toString z
  | JVal.floatv q => if q.den = 1 then toString q.num ++ ".0" else toString q
  | JVal.strv s => s

/-- Models the Python test `value in ("", None)`. -/
def isEmptyOrNone : JVal → Bool
  | JVal.null => true
  | JVal.strv s => s == ""
  | _ => false

/-- Models the Python test `row[key] in (0, "0", "0.0")` (numeric equality
for numbers, literal match for strings). -/
def isLiteralZero : JVal → Bool
  | JVal.intv z => z == 0
  | JVal.floatv q => q == 0
  | JVal.strv s => s == "0" || s == "0.0"
  | JVal.null => false

/-- Embeds `_normalize_number` (market_data.py lines 72-94; money_flow.py has
the identical function): empty/None gives 0; numbers pass through (finite by
representation); strings are stripped, thousands separators removed,
dash-only placeholders give 0, a trailing 亿 (hundred-million) or 万
(ten-thousand) suffix scales, and an unparseable or non-finite result
gives 0. -/
def _normalize_number (value : JVal) : ℚ :=
  if isEmptyOrNone value then 0
  else match value with
  | JVal.intv z => (z : ℚ)
  | JVal.floatv q => q
  | JVal.null => 0
  | JVal.strv s =>
    let text := (stripChars s.toList).filter (fun c => !(c == ','))
    if text = ['-'] ∨ text = ['-', '-'] then 0
    else
      let scaled : ℚ × List Char :=
        if endsWithChar text '亿' then ((100000000 : ℚ), text.dropLast)
        else if endsWithChar text '万' then ((10000 : ℚ), text.dropLast)
        else (1, text)
      match pyFloat (String.mk scaled.2) with
      | PyParse.fin q => q * scaled.1
      | _ => 0

/-- Embeds `_num` (market_data.py lines 55-62; money_flow.py lines 30-37 is
semantically identical): first candidate key that is present, not None and
not the empty string, coerced with `float()`; on a `float()` failure the
scan continues with the next key.  A non-finite `float()` result (not
representable in `ℚ`) is modelled as 0. -/
def _num (row : Row) (keys : List String) (default : ℚ) : ℚ :=
  match keys with
  | [] => default
  | k :: ks =>
    match rowFind? row k with
    | none => _num row ks default
    | some v =>
      if isEmptyOrNone v then _num row ks default
      else match v with
      | JVal.intv z => (z : ℚ)
      | JVal.floatv q => q
      | JVal.null => _num row ks default
      | JVal.strv s =>
        match pyFloat s with
        | PyParse.fin q => q
        | PyParse.nonfin => 0
        | PyParse.err => _num row ks default

/-- Embeds `_str` (market_data.py lines 65-69): first candidate key present
with a non-None value, stringified and stripped. -/
def _str (row : Row) (keys : List String) (default : String) : String :=
  match keys with
  | [] => default
  | k :: ks =>
    match rowFind? row k with
    | none => _str row ks default
    | some v => if v = JVal.null then _str row ks default else pyStrip (pyStr v)

/-- Embeds `_num_unit` (market_data.py lines 97-103; money_flow.py lines
63-69 identical): first candidate key that is present and whose
`_normalize_number` parse is nonzero, or whose raw value is a literal zero;
otherwise the scan continues and the default is returned when no key
qualifies. -/
def _num_unit (row : Row) (keys : List String) (default : ℚ) : ℚ :=
  match keys with
  | [] => default
  | k :: ks =>
    match rowFind? row k with
    | none => _num_unit row ks default
    | some v =>
      let parsed := _normalize_number v
      if parsed ≠ 0 ∨ isLiteralZero v then parsed else _num_unit row ks default

/-- First maximal digit run in a character list (the regex `(\d+)` search). -/
def firstDigitRun : List Char → Option (List Char)
  | [] => none
  | c :: cs => if c.isDigit then some (c :: cs.takeWhile Char.isDigit) else firstDigitRun cs

/-- Embeds `_parse_board_height` (market_data.py lines 106-113) on its string
argument (every call site passes the output of `_str`, so the numeric
branches of the Python function are unreachable): empty gives 0, otherwise
the first embedded integer, else 0. -/
def _parse_board_height (s : String) : ℕ :=
  if s = "" then 0
  else match firstDigitRun s.toList with
  | some ds => digitsVal (ds.map (fun c => c.toNat - '0'.toNat))
  | none => 0

/-- The last `n` elements of a list (Python `l[-n:]`). -/
def takeLast {α : Type} (n : ℕ) (l : List α) : List α := l.drop (l.length - n)

/-- Stable insertion: place `a` before the first element it compares
less-or-equal to. -/
def insertLe {α : Type} (le : α → α → Bool) (a : α) : List α → List α
  | [] => [a]
  | b :: bs => if le a b then a :: b :: bs else b :: insertLe le a bs

/-- Stable sort by a total boolean preorder.  Python's `list.sort` is
specified as a stable sort; with the comparison reversed (`reverse=True`)
ties keep their original order, which is exactly what stable insertion
by `le` gives. -/
def sortLe {α : Type} (le : α → α → Bool) : List α → List α
  | [] => []
  | a :: as => insertLe le a (sortLe le as)

/-- The upstream world: one field per `akshare` endpoint the source calls,
plus one boolean per `hasattr(ak, ...)` probe.  `none` models a raised
exception, `some rs` a successful call whose records are `rs`. -/
structure MarketOracle where
  ztPool : ℕ → Option (List Row)
  dtPool : ℕ → Option (List Row)
  hasZbPool : Bool
  zbPool : ℕ → Option (List Row)
  spot : Option (List Row)
  industryBoard : Option (List Row)
  hasConceptBoard : Bool
  conceptBoard : Option (List Row)
  hasIndustryCons : Bool
  industryCons : String → Option (List Row)
  hasConceptCons : Bool
  conceptCons : String → Option (List Row)
  hist : String → Option (List Row)
  northFlow : Option (List Row)
  hasHsgtHist : Bool
  hsgtHist : String → Option (List Row)
  indivFlow : String → Option (List Row)
  hasIndivRank : Bool
  indivRank : String → Option (List Row)

/-- Embeds `_recent_trade_dates` (market_data.py lines 116-123).  Calendar
days are day indices with `d % 7 < 5` as "weekday() < 5" (a Monday-anchored
epoch); the result keeps, newest first, the weekdays among the 10 most
recent calendar days. -/
def _recent_trade_dates (today : ℕ) : List ℕ :=
  (List.range 10).filterMap (fun offset =>
    let d := today - offset
    if d % 7 < 5 then some d else none)

/-- Payload of `get_market_sentiment`.  The `date` field keeps the day index
(its string formatting is presentation only). -/
structure SentimentPayload where
  date : ℕ
  limit_up : ℕ
  limit_down : ℕ
  max_height : ℕ
  break_rate : ℚ
  turnover : ℤ
  market_sentiment_score : ℚ
  data_source : String
deriving DecidableEq

/-- The four-term sentiment score; market_data.py repeats this expression
verbatim at lines 132-137 (fallback) and 235-240 (live). -/
def sentimentScoreFormula (limit_up limit_down max_height : ℕ) (break_rate : ℚ) : ℚ :=
  clamp ((limit_up : ℚ) / 70 * 45) 0 45
    + clamp (((12 : ℚ) - (limit_down : ℚ)) / 12 * 20) 0 20
    + clamp ((max_height : ℚ) / 6 * 20) 0 20
    + clamp (((0.35 : ℚ) - break_rate) / 0.35 * 15) 0 15

/-- Embeds `_fallback_market_sentiment` (market_data.py lines 126-148). -/
def _fallback_market_sentiment (today : ℕ) : SentimentPayload :=
  { date := today
    limit_up := 42
    limit_down := 9
    max_height := 3
    break_rate := pyRound 0.21 4
    turnover := 980000000000
    market_sentiment_score := pyRound (sentimentScoreFormula 42 9 3 0.21) 2
    data_source := "fallback" }

/-- The date-probe loop of `get_market_sentiment` (market_data.py lines
171-182): first probed date whose limit-up pool call succeeds with a
non-empty record list, together with those records.  A raised call and an
empty frame both continue the probe. -/
def probeZtPool (o : MarketOracle) (dates : List ℕ) : Option (ℕ × List Row) :=
  dates.findSome? (fun d =>
    match o.ztPool d with
    | none => none
    | some rs => if rs.isEmpty then none else some (d, rs))

/-- Embeds `get_market_sentiment` (market_data.py lines 151-253). -/
def get_market_sentiment (rt : Bool) (o : MarketOracle) (today : ℕ) : SentimentPayload :=
  if !rt then _fallback_market_sentiment today
  else match probeZtPool o (_recent_trade_dates today) with
  | none => _fallback_market_sentiment today
  | some (chosen_date, zt_records) =>
    let dt_records := (o.dtPool chosen_date).getD []
    let zb_records := if o.hasZbPool then (o.zbPool chosen_date).getD [] else []
    let limit_up := zt_records.length
    let limit_down := dt_records.length
    let max_height := zt_records.foldl
      (fun acc row => max acc (_parse_board_height (_str row ["连板数", "连板", "连板高度", "几天几板"] "1"))) 0
    let zb_count := zb_records.length
    let break_count :=
      if zb_count = 0 then
        zt_records.countP (fun row =>
          let state := _str row ["状态", "涨停状态", "封板状态"] ""
          !(state == "") && !(state == "封板") && !(state == "涨停"))
      else zb_count
    let total_lu_events := limit_up + break_count
    let break_rate : ℚ := if total_lu_events = 0 then 0 else (break_count : ℚ) / (total_lu_events : ℚ)
    let turnover : ℚ :=
      match o.spot with
      | none => 0
      | some spot_records =>
        (spot_records.map (fun row => _num_unit row ["成交额", "成交额(元)", "amount"] 0)).sum
    { date := chosen_date
      limit_up := limit_up
      limit_down := limit_down
      max_height := max_height
      break_rate := pyRound break_rate 4
      turnover := pyInt turnover
      market_sentiment_score := pyRound (sentimentScoreFormula limit_up limit_down max_height break_rate) 2
      data_source := "akshare-live" }

/-- One entry of the sector-rotation payload.  The static fallback entries
carry no board_code key; that is modelled as the empty string. -/
structure SectorEntry where
  name : String
  change_pct : ℚ
  turnover : ℤ
  limit_up_count : ℤ
  board_code : String
  strength : ℚ
deriving DecidableEq

/-- Payload of `get_sector_rotation`. -/
structure SectorPayload where
  date : ℕ
  top_sectors : List SectorEntry
  data_source : String
deriving DecidableEq

/-- Embeds `_fallback_sector_rotation` (market_data.py lines 256-266). -/
def _fallback_sector_rotation (today : ℕ) : SectorPayload :=
  { date := today
    top_sectors := [
      { name := "AI-Compute", change_pct := 4.2, turnover := 62000000000,
        limit_up_count := 7, board_code := "", strength := 85.2 },
      { name := "Semiconductor", change_pct := 3.6, turnover := 58000000000,
        limit_up_count := 5, board_code := "", strength := 79.8 },
      { name := "Robotics", change_pct := 2.9, turnover := 44000000000,
        limit_up_count := 4, board_code := "", strength := 72.3 }]
    data_source := "fallback" }

/-- Embeds `get_sector_rotation` (market_data.py lines 269-333). -/
def get_sector_rotation (rt : Bool) (o : MarketOracle) (today : ℕ) (top_n : ℕ) : SectorPayload :=
  if !rt then _fallback_sector_rotation today
  else
  let rows0 := (o.industryBoard).getD []
  let sector_rows := if rows0.isEmpty && o.hasConceptBoard then (o.conceptBoard).getD [] else rows0
  if sector_rows.isEmpty then _fallback_sector_rotation today
  else
  let max_turnover0 :=
    ((sector_rows.map (fun row => _num_unit row ["成交额", "总成交额", "总市值"] 0)).max?).getD 0
  let max_turnover := if max_turnover0 = 0 then 1 else max_turnover0
  let sectors := sector_rows.map (fun row =>
    let change_pct := _num row ["涨跌幅", "涨跌幅%"] 0
    let turnover := _num_unit row ["成交额", "总成交额", "总市值"] 0
    let up_count := pyInt (_num row ["上涨家数"] 0)
    let limit_up_count0 := pyInt (_num row ["涨停家数"] 0)
    let limit_up_count :=
      if limit_up_count0 = 0 ∧ 0 < up_count then pyInt ((up_count : ℚ) * 0.08) else limit_up_count0
    let strength := clamp (change_pct / 7 * 45) 0 45
      + clamp (turnover / max_turnover * 25) 0 25
      + clamp ((limit_up_count : ℚ) / 12 * 30) 0 30
    ({ name := _str row ["板块名称", "名称"] "UNKNOWN"
       change_pct := pyRound change_pct 2
       turnover := pyInt turnover
       limit_up_count := limit_up_count
       board_code := _str row ["板块代码", "代码"] ""
       strength := pyRound strength 2 } : SectorEntry))
  let sorted := sortLe (fun a b => decide (b.strength ≤ a.strength)) sectors
  { date := today
    top_sectors := sorted.take top_n
    data_source := "akshare-live" }

/-- Strict increase of consecutive elements. -/
def strictIncr : List ℚ → Bool
  | [] => true
  | [_] => true
  | a :: b :: rest => decide (a < b) && strictIncr (b :: rest)

/-- Modelled from the spec: `trend_up(closes, lookback)` from the
repository's `indicators.py` (imported by the source but missing from
`src/`): the spec requires "a 3-day upward trailing-close trend", modelled
as the last `lookback` closes being strictly increasing. -/
def trend_up (closes : List ℚ) (lookback : ℕ) : Bool :=
  decide (lookback ≤ closes.length) && strictIncr (takeLast lookback closes)

/-- Modelled from the spec: `volume_ratio(latest, baseline)` from the
repository's `indicators.py` (missing from `src/`): "volume_ratio = latest
volume ÷ mean volume of the preceding 5 days", guarded to 0 on a zero
baseline since the pipeline never fails. -/
def volume_ratio (latest baseline : ℚ) : ℚ :=
  if baseline = 0 then 0 else latest / baseline

/-- The `StockCandidate` dataclass (market_data.py lines 25-32), before
`to_dict` rounding. -/
structure StockCandidateI where
  code : String
  name : String
  change_pct : ℚ
  volume_ratio : ℚ
  strength_rank : ℕ
  sector : String
deriving DecidableEq

/-- The candidate dict produced by `StockCandidate.to_dict` (market_data.py
lines 34-42): change percentage and volume ratio rounded to 2 decimals. -/
structure Candidate where
  code : String
  name : String
  change_pct : ℚ
  volume_ratio : ℚ
  strength_rank : ℕ
  sector : String
deriving DecidableEq

/-- Embeds `StockCandidate.to_dict`. -/
def StockCandidateI.to_dict (c : StockCandidateI) : Candidate :=
  { code := c.code
    name := c.name
    change_pct := pyRound c.change_pct 2
    volume_ratio := pyRound c.volume_ratio 2
    strength_rank := c.strength_rank
    sector := c.sector }

/-- Embeds `_fallback_scan_strong_stocks` (market_data.py lines 336-351):
three static candidates with pre-assigned ranks 1, 2, 3; a truthy sector
list filters them (falling back to the unfiltered list when the filter
matches nothing), then the list is truncated to `top_n`. -/
def _fallback_scan_strong_stocks (sectors : Option (List String)) (top_n : ℕ) : List Candidate :=
  let base : List Candidate := [
    StockCandidateI.to_dict
      { code := "300001", name := "DemoTech", change_pct := 8.1,
        volume_ratio := 2.4, strength_rank := 1, sector := "AI-Compute" },
    StockCandidateI.to_dict
      { code := "002345", name := "ChipStar", change_pct := 6.8,
        volume_ratio := 1.9, strength_rank := 2, sector := "Semiconductor" },
    StockCandidateI.to_dict
      { code := "688888", name := "RoboCore", change_pct := 5.5,
        volume_ratio := 1.7, strength_rank := 3, sector := "Robotics" }]
  match sectors with
  | some (s :: ss) =>
    let filt := base.filter (fun x => (s :: ss).contains x.sector)
    (if filt.isEmpty then base else filt).take top_n
  | _ => base.take top_n

/-- The constituent-code collection loop of `scan_strong_stocks`
(market_data.py lines 383-406): per sector name, the industry-constituents
endpoint when present, else the concept-constituents endpoint; a raised
call skips the sector; non-empty codes are accumulated (the Python set is
modelled as a list, only membership and emptiness are consumed). -/
def collectConsCodes (o : MarketOracle) (sector_names : List String) : List String :=
  sector_names.foldl (fun acc sector_name =>
    let recs : Option (List Row) :=
      if o.hasIndustryCons then o.industryCons sector_name
      else if o.hasConceptCons then o.conceptCons sector_name
      else some []
    match recs with
    | none => acc
    | some rs => acc ++ rs.filterMap (fun record =>
        let code := _str record ["代码", "股票代码"] ""
        if code = "" then none else some code)) []

/-- The per-instrument deep filter of `scan_strong_stocks` (market_data.py
lines 420-477): reject on change% ≤ 5, volume-ratio field ≤ 1.5, allow-set
miss, failed history fetch, fewer than 5 history rows, missing 3-day upward
close trend, computed volume ratio ≤ 1.5, or a high-volume bearish
reversal; otherwise produce the internal candidate (rank 0, assigned
later). -/
def deepFilterRow (o : MarketOracle) (allowed_codes : Option (List String)) (row : Row) :
    Option StockCandidateI :=
  let code := _str row ["代码", "股票代码"] ""
  if _num row ["涨跌幅"] 0 ≤ 5 then none
  else if _num row ["量比"] 0 ≤ 1.5 then none
  else if (match allowed_codes with
           | some cs => !cs.contains code
           | none => false) then none
  else match o.hist code with
  | none => none
  | some records =>
    if records.length < 5 then none
    else
    let closes := records.map (fun x => _num x ["收盘"] 0)
    let opens := records.map (fun x => _num x ["开盘"] 0)
    let volumes := records.map (fun x => _num x ["成交量"] 0)
    if !(trend_up closes 3) then none
    else
    let prev := takeLast 5 volumes.dropLast
    let baseline := prev.sum / (max prev.length 1 : ℚ)
    let vol_r := volume_ratio ((last? volumes).getD 0) baseline
    if vol_r ≤ 1.5 then none
    else
    let c2 := (last? closes.dropLast).getD 0
    let last_day_change := if c2 = 0 then 0 else (((last? closes).getD 0) - c2) / c2 * 100
    if ((last? closes).getD 0 < (last? opens).getD 0 ∧ last_day_change < -2 ∧ 2.2 < vol_r)
    then none
    else some
      { code := code
        name := _str row ["名称", "股票名称"] ""
        change_pct := _num row ["涨跌幅"] 0
        volume_ratio := vol_r
        strength_rank := 0
        sector := _str row ["所处行业", "行业"] "UNKNOWN" }

/-- The rank-assigning truncation loop of `scan_strong_stocks`
(market_data.py lines 480-483): 1-based enumeration with `to_dict`. -/
def assignRanks : ℕ → List StockCandidateI → List Candidate
  | _, [] => []
  | idx, c :: cs => ({ c with strength_rank := idx } : StockCandidateI).to_dict :: assignRanks (idx + 1) cs

/-- Embeds `scan_strong_stocks` (market_data.py lines 354-492). -/
def scan_strong_stocks (rt : Bool) (o : MarketOracle) (sectors : Option (List String)) (top_n : ℕ) :
    List Candidate :=
  if !rt then _fallback_scan_strong_stocks sectors top_n
  else match o.spot with
  | none => _fallback_scan_strong_stocks sectors top_n
  | some rows =>
    if rows.isEmpty then _fallback_scan_strong_stocks sectors top_n
    else
    let sectorsTruthy := match sectors with
      | some ss => !ss.isEmpty
      | none => false
    let allowed_codes : Option (List String) :=
      if sectorsTruthy then
        let codes := collectConsCodes o (sectors.getD [])
        if codes.isEmpty then none else some codes
      else none
    let pre_filtered := rows.filter (fun row =>
      decide ((4.5 : ℚ) < _num row ["涨跌幅"] 0) &&
        (match allowed_codes with
         | none => true
         | some cs => cs.contains (_str row ["代码", "股票代码"] "")))
    let pre_sorted := sortLe
      (fun a b => decide (_num b ["涨跌幅"] 0 ≤ _num a ["涨跌幅"] 0)) pre_filtered
    let universeRows := pre_sorted.take 120
    let candidates := universeRows.filterMap (deepFilterRow o allowed_codes)
    let sorted := sortLe (fun a b =>
      decide (b.change_pct < a.change_pct ∨ (b.change_pct = a.change_pct ∧ b.volume_ratio ≤ a.volume_ratio))) candidates
    assignRanks 1 (sorted.take top_n)

/-- Payload of `analyze_capital_flow`. -/
structure CapitalPayload where
  symbol : String
  main_flow : ℤ
  northbound_net : ℤ
  northbound_inflow_days : ℕ
  flow_trend : String
  strength_rank : ℕ
  data_source : String
deriving DecidableEq

/-- Models the Python expression `symbol or "market"` (an empty-string
symbol is falsy). -/
def symbolOrMarket : Option String → String
  | some s => if s = "" then "market" else s
  | none => "market"

/-- Embeds `_fallback_capital_flow` (money_flow.py lines 72-84). -/
def _fallback_capital_flow (symbol : Option String) : CapitalPayload :=
  { symbol := symbolOrMarket symbol
    main_flow := 180000000
    northbound_net := 530000000
    northbound_inflow_days := 3
    flow_trend := "3-day-inflow"
    strength_rank := 12
    data_source := "fallback" }

/-- Embeds `_count_consecutive_inflow` (money_flow.py lines 87-94): trailing
strictly positive points, scanning newest-to-oldest. -/
def _count_consecutive_inflow (values : List ℚ) : ℕ :=
  (values.reverse.takeWhile (fun x => decide (0 < x))).length

/-- Embeds `_load_northbound_series` (money_flow.py lines 97-135): the
direct northbound endpoint first (zero-valued points dropped, last 20
kept), then — when that yields nothing — the three historical-label
endpoints in order, stopping at the first non-empty parsed series; none
found gives the empty list.  The runtime check is handled by the caller,
which never reaches this code with `rt = false`. -/
def _load_northbound_series (o : MarketOracle) : List ℚ :=
  let parse1 : Option (List ℚ) :=
    match o.northFlow with
    | none => none
    | some flow_records =>
      let vals := (flow_records.map (fun x => _num_unit x ["value", "净流入", "当日净流入", "净买额"] 0)).filter
        (fun x => decide (x ≠ 0))
      if vals.isEmpty then none else some (takeLast 20 vals)
  match parse1 with
  | some vals => vals
  | none =>
    if o.hasHsgtHist then
      match (["北向资金", "沪股通", "深股通"] : List String).findSome? (fun sym =>
        match o.hsgtHist sym with
        | none => none
        | some hist_records =>
          let vals := (hist_records.map
              (fun x => _num_unit x ["当日成交净买额", "当日净流入", "净买额", "净流入"] 0)).filter
            (fun x => decide (x ≠ 0))
          if vals.isEmpty then none else some (takeLast 20 vals)) with
      | some vals => vals
      | none => []
    else []

/-- The code a ranked-snapshot row is matched under (money_flow.py line 175):
`str(row.get("股票代码", row.get("代码", ""))).strip()`. -/
def rankRowCode (row : Row) : String :=
  pyStrip (pyStr ((rowFind? row "股票代码").getD ((rowFind? row "代码").getD (JVal.strv ""))))

/-- Embeds `_load_symbol_main_flow` (money_flow.py lines 138-184): the
per-stock fund-flow history first (latest row's net field when any row came
back); then, under up to three ranked-snapshot windows, the first row whose
code matches the symbol; nothing found gives 0. -/
def _load_symbol_main_flow (o : MarketOracle) (symbol : String) : ℚ :=
  let parse1 : Option ℚ :=
    match o.indivFlow symbol with
    | none => none
    | some records =>
      if records.isEmpty then none
      else some (_num_unit ((last? records).getD [])
        ["主力净流入-净额", "主力净额", "主力净流入", "主力净流入净额"] 0)
  match parse1 with
  | some v => v
  | none =>
    if o.hasIndivRank then
      match (["今日", "5日", "10日"] : List String).findSome? (fun indicator =>
        match o.indivRank indicator with
        | none => none
        | some rows => rows.findSome? (fun row =>
            if rankRowCode row = symbol then
              some (_num_unit row ["今日主力净流入-净额", "主力净流入-净额", "主力净额"] 0)
            else none)) with
      | some v => v
      | none => 0
    else 0

/-- The strength-rank tiering of `analyze_capital_flow` (money_flow.py lines
209-216). -/
def strengthRankOf (main_flow : ℚ) : ℕ :=
  if 300000000 ≤ main_flow then 5
  else if 150000000 ≤ main_flow then 12
  else if 0 ≤ main_flow then 30
  else 70

/-- Embeds `analyze_capital_flow` (money_flow.py lines 187-229). -/
def analyze_capital_flow (rt : Bool) (o : MarketOracle) (symbol : Option String) : CapitalPayload :=
  if !rt then _fallback_capital_flow symbol
  else
  let north_vals := _load_northbound_series o
  if north_vals.isEmpty then _fallback_capital_flow symbol
  else
  let northbound_net := (last? north_vals).getD 0
  let northbound_inflow_days := _count_consecutive_inflow north_vals
  let main_flow :=
    match symbol with
    | some s => if s = "" then northbound_net * 0.55 else _load_symbol_main_flow o s
    | none => northbound_net * 0.55
  { symbol := symbolOrMarket symbol
    main_flow := pyInt main_flow
    northbound_net := pyInt northbound_net
    northbound_inflow_days := northbound_inflow_days
    flow_trend := if 0 < northbound_inflow_days
      then toString northbound_inflow_days ++ "-day-inflow" else "outflow"
    strength_rank := strengthRankOf main_flow
    data_source := "akshare-live" }

/-- Embeds `_calc_sector_score` (fusion_engine.py lines 14-18): mean
strength of the top-3 sectors, 0 when there are none. -/
def _calc_sector_score (top_sectors : List SectorEntry) : ℚ :=
  match top_sectors with
  | [] => 0
  | _ =>
    let top3 := top_sectors.take 3
    (top3.map (fun x => x.strength)).sum / (top3.length : ℚ)

/-- Embeds `_calc_stock_volume_score` (fusion_engine.py lines 21-27). -/
def _calc_stock_volume_score (stocks : List Candidate) : ℚ :=
  match stocks with
  | [] => 0
  | top :: _ => clamp (top.volume_ratio / 3 * 60 + top.change_pct / 10 * 40) 0 100

/-- Embeds `_calc_capital_score` (fusion_engine.py lines 30-34). -/
def _calc_capital_score (capital : CapitalPayload) : ℚ :=
  clamp (clamp ((capital.main_flow : ℚ) / 300000000 * 70) 0 70
    + clamp ((capital.northbound_inflow_days : ℚ) / 5 * 30) 0 30) 0 100

/-- Embeds `_calc_technical_score` (fusion_engine.py lines 37-42). -/
def _calc_technical_score (stocks : List Candidate) : ℚ :=
  match stocks with
  | [] => 0
  | top :: _ => clamp (55 + top.volume_ratio * 10) 0 100

/-- The decision triple of `short_term_signal_engine` (fusion_engine.py
lines 78-89), as a function of the composite score and the risk gate's
`market_filter` verdict (the only risk-gate field the engine consumes). -/
structure Decision where
  signal : String
  confidence : ℚ
  holding_days : String
deriving DecidableEq

/-- Embeds fusion_engine.py lines 78-89 (first match wins). -/
def decisionOf (score : ℚ) (market_filter : Bool) : Decision :=
  if 75 ≤ score ∧ market_filter then
    { signal := "SHORT_BUY", confidence := clamp (score / 100 * 0.9) 0 0.95, holding_days := "1-3" }
  else if 60 ≤ score ∧ market_filter then
    { signal := "WATCHLIST", confidence := clamp (score / 100 * 0.75) 0 0.85, holding_days := "1-2" }
  else
    { signal := "NO_TRADE", confidence := clamp (score / 100 * 0.6) 0 0.7, holding_days := "0" }

/-- The `factor_breakdown` sub-dict of the engine payload (fusion_engine.py
lines 101-107). -/
structure FactorBreakdown where
  market_sentiment : ℚ
  sector_strength : ℚ
  stock_volume_strength : ℚ
  capital_inflow : ℚ
  technical_structure : ℚ
deriving DecidableEq

/-- Payload of `short_term_signal_engine`.  The external risk gate's dict is
represented by the consumed `market_filter` boolean. -/
structure EnginePayload where
  score : ℚ
  signal : String
  holding_days : String
  confidence : ℚ
  market_filter : Bool
  market_sentiment : SentimentPayload
  top_sectors : List SectorEntry
  candidates : List Candidate
  capital_flow : CapitalPayload
  factor_breakdown : FactorBreakdown
deriving DecidableEq

/-- Embeds `short_term_signal_engine` (fusion_engine.py lines 45-120).  The
risk gate `short_term_risk_control` lives in the missing `risk_control.py`;
its `market_filter` verdict enters as the opaque boolean `mf` per the
spec's black-box contract. -/
def short_term_signal_engine (rt : Bool) (o : MarketOracle) (today : ℕ) (mf : Bool) : EnginePayload :=
  let sentiment := get_market_sentiment rt o today
  let sector_info := get_sector_rotation rt o today 5
  let sector_names := sector_info.top_sectors.map (fun x => x.name)
  let stocks := scan_strong_stocks rt o (some sector_names) 5
  let target_symbol := (stocks.head?).map (fun c => c.code)
  let capital := analyze_capital_flow rt o target_symbol
  let sentiment_score := sentiment.market_sentiment_score
  let sector_score := _calc_sector_score sector_info.top_sectors
  let stock_score := _calc_stock_volume_score stocks
  let capital_score := _calc_capital_score capital
  let technical_score := _calc_technical_score stocks
  let score := pyRound (clamp (sentiment_score * 0.25 + sector_score * 0.25 + stock_score * 0.20
    + capital_score * 0.20 + technical_score * 0.10) 0 100) 2
  let d := decisionOf score mf
  { score := score
    signal := d.signal
    holding_days := d.holding_days
    confidence := pyRound d.confidence 2
    market_filter := mf
    market_sentiment := sentiment
    top_sectors := sector_info.top_sectors
    candidates := stocks
    capital_flow := capital
    factor_breakdown :=
      { market_sentiment := pyRound sentiment_score 2
        sector_strength := pyRound sector_score 2
        stock_volume_strength := pyRound stock_score 2
        capital_inflow := pyRound capital_score 2
        technical_structure := pyRound technical_score 2 } }

/-- An oracle on which every upstream call raises and every `hasattr` probe
fails: each operation then takes its static fallback. -/
def emptyOracle : MarketOracle :=
  { ztPool := fun _ => none
    dtPool := fun _ => none
    hasZbPool := false
    zbPool := fun _ => none
    spot := none
    industryBoard := none
    hasConceptBoard := false
    conceptBoard := none
    hasIndustryCons := false
    industryCons := fun _ => none
    hasConceptCons := false
    conceptCons := fun _ => none
    hist := fun _ => none
    northFlow := none
    hasHsgtHist := false
    hsgtHist := fun _ => none
    indivFlow := fun _ => none
    hasIndivRank := false
    indivRank := fun _ => none }

/-- The amended resolver contract, written from the amended claim: return
the parsed value of the first candidate field that is present and either
parses to a nonzero number or whose raw value is a literal zero
(`0`, `"0"`, `"0.0"`); skip any other present field (placeholders, empties
and unparseables all parse to 0); return the default when no candidate
qualifies. -/
def amendedResolve (row : Row) (keys : List String) (default : ℚ) : ℚ :=
  match keys with
  | [] => default
  | k :: ks =>
    match rowFind? row k with
    | none => amendedResolve row ks default
    | some v =>
      if _normalize_number v ≠ 0 ∨ isLiteralZero v then _normalize_number v
      else amendedResolve row ks default

/-- The resolver contract exactly as the claim words it (kept to refute it):
return the parsed value of the first candidate field that is present and
non-empty; return the default only when no candidate field is present. -/
def claimResolve (row : Row) (keys : List String) (default : ℚ) : ℚ :=
  match keys with
  | [] => default
  | k :: ks =>
    match rowFind? row k with
    | none => claimResolve row ks default
    | some v => if isEmptyOrNone v then claimResolve row ks default else _normalize_number v

/-- A row whose first candidate field is a dash placeholder. -/
def c4RowAB : Row := [("a", JVal.strv "--"), ("b", JVal.strv "5")]

/-- A row whose only candidate field is a dash placeholder. -/
def c4RowA : Row := [("a", JVal.strv "--")]

/-- A spot row passing the scanner's coarse and deep pre-conditions. -/
def c6Row : Row := [("代码", JVal.strv "600000"), ("涨跌幅", JVal.floatv 6), ("量比", JVal.floatv 2)]

/-- A 5-row daily history with a rising close trend and a volume spike. -/
def c6Hist : List Row :=
  [[("收盘", JVal.floatv 1), ("成交量", JVal.floatv 1)],
   [("收盘", JVal.floatv 2), ("成交量", JVal.floatv 2)],
   [("收盘", JVal.floatv 3), ("成交量", JVal.floatv 3)],
   [("收盘", JVal.floatv 4), ("成交量", JVal.floatv 4)],
   [("收盘", JVal.floatv 5), ("成交量", JVal.floatv 10)]]

/-- An oracle serving only the daily-history endpoint. -/
def c6Oracle : MarketOracle := { emptyOracle with hist := fun _ => some c6Hist }

/-- The internal candidate the deep filter produces from `c6Row`/`c6Hist`. -/
def c6Cand : StockCandidateI :=
  { code := "600000", name := "", change_pct := 6, volume_ratio := 4,
    strength_rank := 0, sector := "UNKNOWN" }

/-- An oracle whose northbound endpoint reports one 10^9 net-inflow point. -/
def c7Oracle : MarketOracle :=
  { emptyOracle with northFlow := some [[("value", JVal.floatv 1000000000)]] }

/-- An oracle whose spot snapshot holds exactly `c6Row` and whose history
endpoint serves `c6Hist`: the live scanner pipeline keeps one candidate. -/
def c8Oracle : MarketOracle :=
  { emptyOracle with spot := some [c6Row], hist := fun _ => some c6Hist }

/-- Counterexample oracle family: a live sentiment of 100 (70 limit-up rows
of board height 6, no limit-down data), a 1-point northbound series, and a
per-instrument main flow of `v`; everything else falls back. -/
def mkCexOracle (v : ℚ) : MarketOracle :=
  { emptyOracle with
    ztPool := fun _ => some (List.replicate 70 [("连板数", JVal.strv "6")])
    northFlow := some [[("value", JVal.floatv 100)]]
    indivFlow := fun _ => some [[("主力净流入-净额", JVal.floatv v)]] }

/-- An oracle where the northbound series loads but both per-instrument
lookups degrade: the fund-flow history returns zero rows and the ranked
snapshot has no row matching the probed symbol. -/
def c10Oracle : MarketOracle :=
  { emptyOracle with
    northFlow := some [[("value", JVal.floatv 100)]]
    indivFlow := fun _ => some []
    hasIndivRank := true
    indivRank := fun _ => some [[("代码", JVal.strv "000001")]] }

theorem le_clamp (v lo hi : ℚ) : lo ≤ clamp v lo hi := le_max_left _ _

theorem clamp_le (v lo hi : ℚ) (h : lo ≤ hi) : clamp v lo hi ≤ hi :=
  max_le h (min_le_right _ _)

theorem clamp_eq_self (v lo hi : ℚ) (h1 : lo ≤ v) (h2 : v ≤ hi) : clamp v lo hi = v := by
  unfold clamp
  rw [min_eq_left h2, max_eq_right h1]

theorem roundHalfEven_mono {x y : ℚ} (h : x ≤ y) : roundHalfEven x ≤ roundHalfEven y := by
  unfold roundHalfEven
  have hf : ⌊x⌋ ≤ ⌊y⌋ := Int.floor_le_floor h
  rcases eq_or_lt_of_le hf with he | hl
  · rw [← he]
    have hr : x - ⌊x⌋ ≤ y - ⌊x⌋ := by linarith
    split_ifs <;> first | omega | linarith
  · split_ifs <;> omega

theorem roundHalfEven_intCast (z : ℤ) : roundHalfEven (z : ℚ) = z := by
  unfold roundHalfEven
  rw [Int.floor_intCast]
  norm_num

theorem pyRound_mono {x y : ℚ} (n : ℕ) (h : x ≤ y) : pyRound x n ≤ pyRound y n := by
  unfold pyRound
  have h2 : roundHalfEven (x * 10 ^ n) ≤ roundHalfEven (y * 10 ^ n) :=
    roundHalfEven_mono (by gcongr)
  gcongr

theorem pyRound_le_of_mul_le {x : ℚ} {n : ℕ} {z : ℤ} (h : x * 10 ^ n ≤ (z : ℚ)) :
    pyRound x n ≤ (z : ℚ) / 10 ^ n := by
  unfold pyRound
  have h2 : roundHalfEven (x * 10 ^ n) ≤ z := by
    have := roundHalfEven_mono h
    rwa [roundHalfEven_intCast] at this
  gcongr

theorem le_pyRound_of_le_mul {x : ℚ} {n : ℕ} {z : ℤ} (h : (z : ℚ) ≤ x * 10 ^ n) :
    (z : ℚ) / 10 ^ n ≤ pyRound x n := by
  unfold pyRound
  have h2 : z ≤ roundHalfEven (x * 10 ^ n) := by
    have := roundHalfEven_mono h
    rwa [roundHalfEven_intCast] at this
  gcongr

theorem pyRound_nonneg {x : ℚ} (n : ℕ) (h : 0 ≤ x) : 0 ≤ pyRound x n := by
  have h0 : ((0 : ℤ) : ℚ) ≤ x * 10 ^ n := by positivity
  have := le_pyRound_of_le_mul h0
  simpa using this

theorem pyRound_le_hundred {x : ℚ} (n : ℕ) (h : x ≤ 100) : pyRound x n ≤ 100 := by
  have h0 : x * 10 ^ n ≤ ((100 * 10 ^ n : ℤ) : ℚ) := by
    push_cast
    have h10 : (0 : ℚ) ≤ 10 ^ n := by positivity
    nlinarith
  have := pyRound_le_of_mul_le h0
  calc pyRound x n ≤ ((100 * 10 ^ n : ℤ) : ℚ) / 10 ^ n := this
    _ = 100 := by push_cast; field_simp

theorem pyInt_intCast (z : ℤ) : pyInt (z : ℚ) = z := by
  unfold pyInt
  split_ifs with h
  · exact Int.floor_intCast z
  · rw [← Int.cast_neg, Int.floor_intCast, neg_neg]

theorem mem_insertLe {α : Type} (le : α → α → Bool) (a x : α) (l : List α) :
    x ∈ insertLe le a l ↔ x ∈ a :: l := by
  induction l with
  | nil => simp [insertLe]
  | cons b bs ih =>
    unfold insertLe
    split_ifs
    · simp
    · simp only [List.mem_cons, ih]
      tauto

theorem mem_sortLe {α : Type} (le : α → α → Bool) (x : α) (l : List α) :
    x ∈ sortLe le l ↔ x ∈ l := by
  induction l with
  | nil => simp [sortLe]
  | cons a as ih => rw [sortLe, mem_insertLe]; simp [ih]

theorem length_assignRanks (i : ℕ) (l : List StockCandidateI) :
    (assignRanks i l).length = l.length := by
  induction l generalizing i with
  | nil => rfl
  | cons c cs ih => simp [assignRanks, ih]

theorem assignRanks_map_rank (i : ℕ) (l : List StockCandidateI) :
    (assignRanks i l).map (fun c => c.strength_rank) = List.range' i l.length := by
  induction l generalizing i with
  | nil => rfl
  | cons c cs ih => simp [assignRanks, StockCandidateI.to_dict, List.range'_succ, ih]

theorem sentimentScoreFormula_mem (a b c : ℕ) (r : ℚ) :
    0 ≤ sentimentScoreFormula a b c r ∧ sentimentScoreFormula a b c r ≤ 100 := by
  unfold sentimentScoreFormula
  have p1 := le_clamp ((a : ℚ) / 70 * 45) 0 45
  have q1 := clamp_le ((a : ℚ) / 70 * 45) 0 45 (by norm_num)
  have p2 := le_clamp (((12 : ℚ) - (b : ℚ)) / 12 * 20) 0 20
  have q2 := clamp_le (((12 : ℚ) - (b : ℚ)) / 12 * 20) 0 20 (by norm_num)
  have p3 := le_clamp ((c : ℚ) / 6 * 20) 0 20
  have q3 := clamp_le ((c : ℚ) / 6 * 20) 0 20 (by norm_num)
  have p4 := le_clamp (((0.35 : ℚ) - r) / 0.35 * 15) 0 15
  have q4 := clamp_le (((0.35 : ℚ) - r) / 0.35 * 15) 0 15 (by norm_num)
  constructor <;> linarith

theorem sentiment_score_mem (rt : Bool) (o : MarketOracle) (today : ℕ) :
    0 ≤ (get_market_sentiment rt o today).market_sentiment_score
    ∧ (get_market_sentiment rt o today).market_sentiment_score ≤ 100 := by
  have hm : ∀ (a b c : ℕ) (r : ℚ), 0 ≤ pyRound (sentimentScoreFormula a b c r) 2
      ∧ pyRound (sentimentScoreFormula a b c r) 2 ≤ 100 := by
    intro a b c r
    obtain ⟨h1, h2⟩ := sentimentScoreFormula_mem a b c r
    exact ⟨pyRound_nonneg 2 h1, pyRound_le_hundred 2 h2⟩
  unfold get_market_sentiment
  split
  · exact hm 42 9 3 0.21
  · split
    · exact hm 42 9 3 0.21
    · exact hm _ _ _ _

theorem sentiment_source_cases (rt : Bool) (o : MarketOracle) (today : ℕ) :
    (get_market_sentiment rt o today).data_source = "akshare-live"
    ∨ (get_market_sentiment rt o today).data_source = "fallback" := by
  unfold get_market_sentiment
  split
  · right; rfl
  · split
    · right; rfl
    · left; rfl

theorem fallback_sector_strengths (today : ℕ) :
    ∀ e ∈ (_fallback_sector_rotation today).top_sectors, 0 ≤ e.strength ∧ e.strength ≤ 100 := by
  intro e he
  simp only [_fallback_sector_rotation, List.mem_cons, List.not_mem_nil, or_false] at he
  rcases he with h | h | h <;> subst h <;> norm_num

theorem three_clamps_mem (x y z : ℚ) :
    0 ≤ clamp x 0 45 + clamp y 0 25 + clamp z 0 30
    ∧ clamp x 0 45 + clamp y 0 25 + clamp z 0 30 ≤ 100 := by
  have p1 := le_clamp x 0 45
  have q1 := clamp_le x 0 45 (by norm_num)
  have p2 := le_clamp y 0 25
  have q2 := clamp_le y 0 25 (by norm_num)
  have p3 := le_clamp z 0 30
  have q3 := clamp_le z 0 30 (by norm_num)
  constructor <;> linarith

theorem sector_strengths_mem (rt : Bool) (o : MarketOracle) (today n : ℕ) :
    ∀ e ∈ (get_sector_rotation rt o today n).top_sectors, 0 ≤ e.strength ∧ e.strength ≤ 100 := by
  unfold get_sector_rotation
  split
  · exact fallback_sector_strengths today
  · dsimp only
    split <;>
    · split
      · exact fallback_sector_strengths today
      · intro e he
        have he2 := List.mem_of_mem_take he
        rw [mem_sortLe] at he2
        obtain ⟨row, hrow, rfl⟩ := List.mem_map.mp he2
        exact ⟨pyRound_nonneg 2 (three_clamps_mem _ _ _).1,
          pyRound_le_hundred 2 (three_clamps_mem _ _ _).2⟩

theorem sector_source_cases (rt : Bool) (o : MarketOracle) (today n : ℕ) :
    (get_sector_rotation rt o today n).data_source = "akshare-live"
    ∨ (get_sector_rotation rt o today n).data_source = "fallback" := by
  unfold get_sector_rotation
  split
  · right; rfl
  · dsimp only
    split <;>
    · split
      · right; rfl
      · left; rfl

theorem capital_source_cases (rt : Bool) (o : MarketOracle) (symbol : Option String) :
    (analyze_capital_flow rt o symbol).data_source = "akshare-live"
    ∨ (analyze_capital_flow rt o symbol).data_source = "fallback" := by
  unfold analyze_capital_flow
  split
  · right; rfl
  · dsimp only
    split
    · right; rfl
    · left; rfl

theorem list_mean_mem (l : List ℚ) (hne : l ≠ [])
    (h : ∀ x ∈ l, 0 ≤ x ∧ x ≤ 100) : 0 ≤ l.sum / (l.length : ℚ) ∧ l.sum / (l.length : ℚ) ≤ 100 := by
  have hlen : 0 < (l.length : ℚ) := by
    have := List.length_pos.mpr hne
    exact_mod_cast this
  have hsum0 : 0 ≤ l.sum := List.sum_nonneg fun x hx => (h x hx).1
  have hsum1 : l.sum ≤ (l.length : ℚ) * 100 := by
    have := List.sum_le_card_nsmul l 100 fun x hx => (h x hx).2
    simpa [nsmul_eq_mul] using this
  constructor
  · positivity
  · rw [div_le_iff₀ hlen]
    linarith

theorem calc_sector_score_mem (l : List SectorEntry)
    (h : ∀ e ∈ l, 0 ≤ e.strength ∧ e.strength ≤ 100) :
    0 ≤ _calc_sector_score l ∧ _calc_sector_score l ≤ 100 := by
  unfold _calc_sector_score
  match l with
  | [] => norm_num
  | a :: as =>
    have hne : ((a :: as).take 3).map (fun x => x.strength) ≠ [] := by simp
    have hmem : ∀ x ∈ ((a :: as).take 3).map (fun x => x.strength), 0 ≤ x ∧ x ≤ 100 := by
      intro x hx
      obtain ⟨e, he, rfl⟩ := List.mem_map.mp hx
      exact h e (List.mem_of_mem_take he)
    have := list_mean_mem _ hne hmem
    simpa [List.length_map] using this

theorem calc_stock_score_mem (stocks : List Candidate) :
    0 ≤ _calc_stock_volume_score stocks ∧ _calc_stock_volume_score stocks ≤ 100 := by
  unfold _calc_stock_volume_score
  match stocks with
  | [] => norm_num
  | top :: _ =>
    exact ⟨le_clamp _ 0 100, clamp_le _ 0 100 (by norm_num)⟩

theorem calc_capital_score_mem (capital : CapitalPayload) :
    0 ≤ _calc_capital_score capital ∧ _calc_capital_score capital ≤ 100 :=
  ⟨le_clamp _ 0 100, clamp_le _ 0 100 (by norm_num)⟩

theorem calc_technical_score_mem (stocks : List Candidate) :
    0 ≤ _calc_technical_score stocks ∧ _calc_technical_score stocks ≤ 100 := by
  unfold _calc_technical_score
  match stocks with
  | [] => norm_num
  | top :: _ =>
    exact ⟨le_clamp _ 0 100, clamp_le _ 0 100 (by norm_num)⟩

theorem engine_decision_link (rt : Bool) (o : MarketOracle) (today : ℕ) (mf : Bool) :
    (short_term_signal_engine rt o today mf).signal
      = (decisionOf (short_term_signal_engine rt o today mf).score mf).signal
    ∧ (short_term_signal_engine rt o today mf).holding_days
      = (decisionOf (short_term_signal_engine rt o today mf).score mf).holding_days
    ∧ (short_term_signal_engine rt o today mf).confidence
      = pyRound (decisionOf (short_term_signal_engine rt o today mf).score mf).confidence 2 :=
  ⟨rfl, rfl, rfl⟩

theorem decision_cases (s : ℚ) (mf : Bool) :
    ((75 ≤ s ∧ mf = true) → decisionOf s mf =
      { signal := "SHORT_BUY", confidence := clamp (s / 100 * 0.9) 0 0.95, holding_days := "1-3" })
    ∧ ((¬ 75 ≤ s) → (60 ≤ s ∧ mf = true) → decisionOf s mf =
      { signal := "WATCHLIST", confidence := clamp (s / 100 * 0.75) 0 0.85, holding_days := "1-2" })
    ∧ ((mf = false ∨ s < 60) → decisionOf s mf =
      { signal := "NO_TRADE", confidence := clamp (s / 100 * 0.6) 0 0.7, holding_days := "0" }) := by
  refine ⟨?_, ?_, ?_⟩
  · intro h
    unfold decisionOf
    rw [if_pos h]
  · intro h75 h
    unfold decisionOf
    rw [if_neg (fun hc => h75 hc.1), if_pos h]
  · intro h
    unfold decisionOf
    rw [if_neg, if_neg]
    · rintro ⟨h60, hmf⟩
      rcases h with hf | hs
      · rw [hf] at hmf; cases hmf
      · linarith
    · rintro ⟨h75, hmf⟩
      rcases h with hf | hs
      · rw [hf] at hmf; cases hmf
      · linarith

/-- C1: the decision of `short_term_signal_engine` is first-match-wins over
the composite score and the risk gate's `market_filter`: composite ≥ 75
with the filter true yields SHORT_BUY holding "1-3"; otherwise composite
≥ 60 with the filter true yields WATCHLIST holding "1-2"; otherwise
NO_TRADE holding "0".  In particular any run with composite 75.0 and
`market_filter = false` signals NO_TRADE: the gate can veto a qualifying
score down but never upgrade a low one. -/
theorem C1_decision_first_match (rt : Bool) (o : MarketOracle) (today : ℕ) (mf : Bool) :
    (75 ≤ (short_term_signal_engine rt o today mf).score ∧ mf = true →
      (short_term_signal_engine rt o today mf).signal = "SHORT_BUY"
      ∧ (short_term_signal_engine rt o today mf).holding_days = "1-3")
    ∧ ((short_term_signal_engine rt o today mf).score < 75 →
       60 ≤ (short_term_signal_engine rt o today mf).score → mf = true →
      (short_term_signal_engine rt o today mf).signal = "WATCHLIST"
      ∧ (short_term_signal_engine rt o today mf).holding_days = "1-2")
    ∧ (mf = false ∨ (short_term_signal_engine rt o today mf).score < 60 →
      (short_term_signal_engine rt o today mf).signal = "NO_TRADE"
      ∧ (short_term_signal_engine rt o today mf).holding_days = "0")
    ∧ ((short_term_signal_engine rt o today mf).score = 75 → mf = false →
      (short_term_signal_engine rt o today mf).signal = "NO_TRADE") := by
  obtain ⟨hsig, hhold, _⟩ := engine_decision_link rt o today mf
  obtain ⟨d1, d2, d3⟩ := decision_cases (short_term_signal_engine rt o today mf).score mf
  refine ⟨?_, ?_, ?_, ?_⟩
  · intro h
    rw [hsig, hhold, d1 h]
    exact ⟨rfl, rfl⟩
  · intro h75 h60 hmf
    rw [hsig, hhold, d2 (not_le.mpr h75) ⟨h60, hmf⟩]
    exact ⟨rfl, rfl⟩
  · intro h
    rw [hsig, hhold, d3 h]
    exact ⟨rfl, rfl⟩
  · intro _ hmf
    rw [hsig, d3 (Or.inl hmf)]

/-- C1 witness: on the all-failing oracle with the filter vetoing, the
engine signals NO_TRADE with holding "0". -/
theorem C1_witness :
    (short_term_signal_engine false emptyOracle 0 false).signal = "NO_TRADE"
    ∧ (short_term_signal_engine false emptyOracle 0 false).holding_days = "0" :=
  (C1_decision_first_match false emptyOracle 0 false).2.2.1 (Or.inl rfl)

/-- C2: for every upstream world, each of the five factor sub-scores of the
fusion engine (market sentiment, sector strength, stock volume, capital,
technical) lies in [0, 100], and the composite equals
clamp(0.25·sentiment + 0.25·sector + 0.20·stock + 0.20·capital +
0.10·technical, 0, 100) rounded to 2 decimals, which also lies in
[0, 100]. -/
theorem C2_factor_and_composite_bounds (rt : Bool) (o : MarketOracle) (today : ℕ) (mf : Bool) :
    (0 ≤ (get_market_sentiment rt o today).market_sentiment_score
      ∧ (get_market_sentiment rt o today).market_sentiment_score ≤ 100)
    ∧ (0 ≤ _calc_sector_score (short_term_signal_engine rt o today mf).top_sectors
      ∧ _calc_sector_score (short_term_signal_engine rt o today mf).top_sectors ≤ 100)
    ∧ (0 ≤ _calc_stock_volume_score (short_term_signal_engine rt o today mf).candidates
      ∧ _calc_stock_volume_score (short_term_signal_engine rt o today mf).candidates ≤ 100)
    ∧ (0 ≤ _calc_capital_score (short_term_signal_engine rt o today mf).capital_flow
      ∧ _calc_capital_score (short_term_signal_engine rt o today mf).capital_flow ≤ 100)
    ∧ (0 ≤ _calc_technical_score (short_term_signal_engine rt o today mf).candidates
      ∧ _calc_technical_score (short_term_signal_engine rt o today mf).candidates ≤ 100)
    ∧ (short_term_signal_engine rt o today mf).score
      = pyRound (clamp
          (0.25 * (get_market_sentiment rt o today).market_sentiment_score
            + 0.25 * _calc_sector_score (short_term_signal_engine rt o today mf).top_sectors
            + 0.20 * _calc_stock_volume_score (short_term_signal_engine rt o today mf).candidates
            + 0.20 * _calc_capital_score (short_term_signal_engine rt o today mf).capital_flow
            + 0.10 * _calc_technical_score (short_term_signal_engine rt o today mf).candidates)
          0 100) 2
    ∧ (0 ≤ (short_term_signal_engine rt o today mf).score
      ∧ (short_term_signal_engine rt o today mf).score ≤ 100) := by
  have htops : (short_term_signal_engine rt o today mf).top_sectors
      = (get_sector_rotation rt o today 5).top_sectors := rfl
  refine ⟨sentiment_score_mem rt o today, ?_, calc_stock_score_mem _,
    calc_capital_score_mem _, calc_technical_score_mem _, ?_, ?_⟩
  · rw [htops]
    exact calc_sector_score_mem _ (sector_strengths_mem rt o today 5)
  · have heq : (short_term_signal_engine rt o today mf).score
        = pyRound (clamp
            ((get_market_sentiment rt o today).market_sentiment_score * 0.25
              + _calc_sector_score (short_term_signal_engine rt o today mf).top_sectors * 0.25
              + _calc_stock_volume_score (short_term_signal_engine rt o today mf).candidates * 0.20
              + _calc_capital_score (short_term_signal_engine rt o today mf).capital_flow * 0.20
              + _calc_technical_score (short_term_signal_engine rt o today mf).candidates * 0.10)
            0 100) 2 := rfl
    rw [heq]
    exact congrArg (fun t => pyRound (clamp t 0 100) 2) (by ring)
  · constructor
    · exact pyRound_nonneg 2 (le_clamp _ 0 100)
    · exact pyRound_le_hundred 2 (clamp_le _ 0 100 (by norm_num))

/-- C3: every public operation is total over the upstream world by
construction (each is a function into a fully-typed payload); an absent
normalization runtime (`rt = false`) short-circuits immediately to the
static fallback — tagged with source "fallback" for the three
payload-returning operations — and for every upstream behaviour the
provenance tag is exactly one of "akshare-live" or "fallback". -/
theorem C3_total_with_fallback (o : MarketOracle) (today top_n : ℕ)
    (sectors : Option (List String)) (symbol : Option String) (mf : Bool) :
    (get_market_sentiment false o today = _fallback_market_sentiment today
      ∧ (get_market_sentiment false o today).data_source = "fallback")
    ∧ (get_sector_rotation false o today top_n = _fallback_sector_rotation today
      ∧ (get_sector_rotation false o today top_n).data_source = "fallback")
    ∧ scan_strong_stocks false o sectors top_n = _fallback_scan_strong_stocks sectors top_n
    ∧ (analyze_capital_flow false o symbol = _fallback_capital_flow symbol
      ∧ (analyze_capital_flow false o symbol).data_source = "fallback")
    ∧ ((short_term_signal_engine false o today mf).market_sentiment
        = _fallback_market_sentiment today
      ∧ (short_term_signal_engine false o today mf).capital_flow
        = _fallback_capital_flow (some "300001"))
    ∧ (∀ rt : Bool, (get_market_sentiment rt o today).data_source = "akshare-live"
        ∨ (get_market_sentiment rt o today).data_source = "fallback")
    ∧ (∀ rt : Bool, (get_sector_rotation rt o today top_n).data_source = "akshare-live"
        ∨ (get_sector_rotation rt o today top_n).data_source = "fallback")
    ∧ (∀ rt : Bool, (analyze_capital_flow rt o symbol).data_source = "akshare-live"
        ∨ (analyze_capital_flow rt o symbol).data_source = "fallback") :=
  ⟨⟨rfl, rfl⟩, ⟨rfl, rfl⟩, rfl, ⟨rfl, rfl⟩, ⟨rfl, rfl⟩,
    fun rt => sentiment_source_cases rt o today,
    fun rt => sector_source_cases rt o today top_n,
    fun rt => capital_source_cases rt o symbol⟩

set_option maxRecDepth 10000 in
/-- C4 counterexample: in `c4RowAB` the first present non-empty candidate
field is "a", a dash placeholder parsing to 0, yet the resolver answers 5
(the later field "b"); and in `c4RowA` a candidate field is present yet the
default 7 is returned.  Both contradict the claim, whose literal reading
`claimResolve` answers 0 in each case. -/
theorem C4_counterexample :
    _num_unit c4RowAB ["a", "b"] 7 = 5
    ∧ claimResolve c4RowAB ["a", "b"] 7 = 0
    ∧ rowFind? c4RowAB "a" = some (JVal.strv "--")
    ∧ _normalize_number (JVal.strv "--") = 0
    ∧ _num_unit c4RowA ["a"] 7 = 7
    ∧ claimResolve c4RowA ["a"] 7 = 0
    ∧ rowFind? c4RowA "a" = some (JVal.strv "--") := by
  with_unfolding_all decide

set_option maxRecDepth 10000 in
/-- C4 amended: the numeric resolver returns the parsed value of the first
candidate field that is present and either parses to a nonzero number or is
a literal zero (0, "0", "0.0"); any other present field — placeholders,
empties, unparseables, all of which parse to 0.0 — is skipped, and the
default is returned when no candidate qualifies.  Parsing strips thousands
separators, treats dash-only placeholders as zero, scales by the
hundred-million and ten-thousand suffix multipliers, and coerces
unparseable input to 0; the resolver is a total function. -/
theorem C4_amended_resolver (row : Row) (keys : List String) (default : ℚ) :
    _num_unit row keys default = amendedResolve row keys default
    ∧ _normalize_number (JVal.strv "-") = 0
    ∧ _normalize_number (JVal.strv "") = 0
    ∧ _normalize_number JVal.null = 0
    ∧ _normalize_number (JVal.strv "1,234") = 1234
    ∧ _normalize_number (JVal.strv "2亿") = 200000000
    ∧ _normalize_number (JVal.strv "3.5万") = 35000
    ∧ _normalize_number (JVal.strv "abc") = 0 := by
  refine ⟨?_, ?_, ?_, ?_, ?_, ?_, ?_, ?_⟩
  · induction keys with
    | nil => rfl
    | cons k ks ih =>
      unfold _num_unit amendedResolve
      cases rowFind? row k with
      | none => exact ih
      | some v =>
        dsimp only
        split_ifs
        · rfl
        · exact ih
  all_goals apply Rat.ext <;> with_unfolding_all decide

theorem probeZtPool_eq_none_iff (o : MarketOracle) (dates : List ℕ) :
    probeZtPool o dates = none ↔ ∀ d ∈ dates, o.ztPool d = none ∨ o.ztPool d = some [] := by
  unfold probeZtPool
  rw [List.findSome?_eq_none_iff]
  refine forall_congr' fun d => forall_congr' fun _ => ?_
  cases hz : o.ztPool d with
  | none => simp
  | some rs => cases rs <;> simp

theorem findSome?_eq_some_split {α β : Type} {f : α → Option β} {l : List α} {b : β}
    (h : l.findSome? f = some b) :
    ∃ l1 a l2, l = l1 ++ a :: l2 ∧ f a = some b ∧ ∀ x ∈ l1, f x = none := by
  induction l with
  | nil => simp at h
  | cons a as ih =>
    rw [List.findSome?_cons] at h
    cases hfa : f a with
    | some b2 =>
      rw [hfa] at h
      refine ⟨[], a, as, rfl, ?_, by simp⟩
      rw [hfa]
      exact h
    | none =>
      rw [hfa] at h
      obtain ⟨l1, a2, l2, heq, hfa2, hall⟩ := ih h
      refine ⟨a :: l1, a2, l2, by rw [heq]; rfl, hfa2, ?_⟩
      intro x hx
      rcases List.mem_cons.mp hx with rfl | hx2
      · exact hfa
      · exact hall x hx2

theorem recent_dates_mem {today d : ℕ} (h9 : 9 ≤ today) (hd : d ∈ _recent_trade_dates today) :
    d % 7 < 5 ∧ today - 9 ≤ d ∧ d ≤ today := by
  unfold _recent_trade_dates at hd
  simp only [List.mem_filterMap, List.mem_range] at hd
  obtain ⟨off, hoff, hcond⟩ := hd
  split at hcond
  · cases hcond
    constructor
    · assumption
    · omega
  · cases hcond

theorem recent_dates_len (today : ℕ) : (_recent_trade_dates today).length ≤ 10 := by
  unfold _recent_trade_dates
  calc (List.filterMap _ (List.range 10)).length ≤ (List.range 10).length :=
        List.length_filterMap_le _ _
    _ = 10 := List.length_range 10

theorem recent_dates_pairwise {today : ℕ} (h9 : 9 ≤ today) :
    (_recent_trade_dates today).Pairwise (fun a b => b < a) := by
  unfold _recent_trade_dates
  rw [List.pairwise_filterMap]
  have hr : (List.range 10).Pairwise (· < ·) := List.pairwise_lt_range 10
  refine hr.imp_of_mem ?_
  intro a b ha hb hab
  intro x hx y hy
  rw [List.mem_range] at ha hb
  dsimp only at hx hy
  split at hx
  · split at hy
    · simp only [Option.mem_def, Option.some.injEq] at hx hy
      omega
    · simp at hy
  · simp at hx

theorem sentiment_fallback_iff (o : MarketOracle) (today : ℕ) :
    (get_market_sentiment true o today).data_source = "fallback"
    ↔ probeZtPool o (_recent_trade_dates today) = none := by
  unfold get_market_sentiment
  cases hp : probeZtPool o (_recent_trade_dates today) with
  | none => simp [hp, _fallback_market_sentiment]
  | some pr =>
    obtain ⟨d, rs⟩ := pr
    simp [hp]

theorem sentiment_live_of_probe (o : MarketOracle) (today d : ℕ) (rs : List Row)
    (hp : probeZtPool o (_recent_trade_dates today) = some (d, rs)) :
    (get_market_sentiment true o today).data_source = "akshare-live"
    ∧ (get_market_sentiment true o today).date = d
    ∧ (get_market_sentiment true o today).limit_up = rs.length := by
  unfold get_market_sentiment
  rw [hp]
  exact ⟨rfl, rfl, rfl⟩

theorem sentiment_fallback_of_all_empty (o : MarketOracle) (today : ℕ)
    (h : ∀ d ∈ _recent_trade_dates today, o.ztPool d = none ∨ o.ztPool d = some []) :
    get_market_sentiment true o today = _fallback_market_sentiment today := by
  unfold get_market_sentiment
  rw [(probeZtPool_eq_none_iff o (_recent_trade_dates today)).mpr h]
  rfl

theorem probe_some_first (o : MarketOracle) (dates : List ℕ) (d : ℕ) (rs : List Row)
    (hp : probeZtPool o dates = some (d, rs))
    (hsorted : dates.Pairwise (fun a b => b < a)) :
    rs ≠ [] ∧ o.ztPool d = some rs ∧ d ∈ dates
    ∧ ∀ d2 ∈ dates, d < d2 → o.ztPool d2 = none ∨ o.ztPool d2 = some [] := by
  unfold probeZtPool at hp
  obtain ⟨l1, a, l2, heq, hfa, hall⟩ := findSome?_eq_some_split hp
  have ha : a = d ∧ o.ztPool a = some rs ∧ rs ≠ [] := by
    cases hz : o.ztPool a with
    | none => rw [hz] at hfa; cases hfa
    | some rs2 =>
      rw [hz] at hfa
      dsimp only at hfa
      by_cases he : rs2.isEmpty
      · rw [if_pos he] at hfa; cases hfa
      · rw [if_neg he] at hfa
        rw [Option.some.injEq, Prod.mk.injEq] at hfa
        obtain ⟨rfl, rfl⟩ := hfa
        refine ⟨rfl, rfl, ?_⟩
        intro hnil
        exact he (by rw [hnil]; rfl)
  obtain ⟨rfl, hza, hne⟩ := ha
  have hmem : a ∈ dates := by
    rw [heq]
    exact List.mem_append_right l1 (List.mem_cons_self a l2)
  refine ⟨hne, hza, hmem, ?_⟩
  intro d2 hd2 hlt
  rw [heq] at hd2 hsorted
  rw [List.pairwise_append] at hsorted
  obtain ⟨hp1, hp2, hcross⟩ := hsorted
  rcases List.mem_append.mp hd2 with h1 | h23
  · have hf := hall d2 h1
    cases hz2 : o.ztPool d2 with
    | none => exact Or.inl rfl
    | some rs3 =>
      rw [hz2] at hf
      dsimp only at hf
      by_cases he3 : rs3.isEmpty
      · right
        rw [List.isEmpty_iff] at he3
        subst he3
        rfl
      · rw [if_neg he3] at hf
        cases hf
  · rcases List.mem_cons.mp h23 with rfl | h3
    · omega
    · have := (List.pairwise_cons.mp hp2).1 d2 h3
      omega

/-- C5: `get_market_sentiment` probes the limit-up pool on the most-recent
weekdays among the last 10 calendar days, newest first (at most 10 probes,
all weekdays, strictly decreasing), stops at the first date whose pool is
non-empty, and returns the static fallback snapshot — constants
limit_up 42, limit_down 9, max_height 3, break_rate 0.21, source
"fallback" — exactly when every probed date yields an empty or failed
pool. -/
theorem C5_probe_first_nonempty (o : MarketOracle) (today : ℕ) (h9 : 9 ≤ today) :
    ((_recent_trade_dates today).length ≤ 10
      ∧ (∀ d ∈ _recent_trade_dates today, d % 7 < 5 ∧ today - 9 ≤ d ∧ d ≤ today)
      ∧ (_recent_trade_dates today).Pairwise (fun a b => b < a))
    ∧ ((get_market_sentiment true o today).data_source = "fallback"
        ↔ ∀ d ∈ _recent_trade_dates today, o.ztPool d = none ∨ o.ztPool d = some [])
    ∧ ((∀ d ∈ _recent_trade_dates today, o.ztPool d = none ∨ o.ztPool d = some []) →
        get_market_sentiment true o today = _fallback_market_sentiment today
        ∧ (get_market_sentiment true o today).limit_up = 42
        ∧ (get_market_sentiment true o today).limit_down = 9
        ∧ (get_market_sentiment true o today).max_height = 3
        ∧ (get_market_sentiment true o today).break_rate = 0.21
        ∧ (get_market_sentiment true o today).data_source = "fallback")
    ∧ (∀ d rs, probeZtPool o (_recent_trade_dates today) = some (d, rs) →
        (get_market_sentiment true o today).data_source = "akshare-live"
        ∧ (get_market_sentiment true o today).date = d
        ∧ (get_market_sentiment true o today).limit_up = rs.length
        ∧ rs ≠ [] ∧ o.ztPool d = some rs ∧ d ∈ _recent_trade_dates today
        ∧ ∀ d2 ∈ _recent_trade_dates today, d < d2 →
            o.ztPool d2 = none ∨ o.ztPool d2 = some []) := by
  refine ⟨⟨recent_dates_len today, fun d hd => recent_dates_mem h9 hd,
    recent_dates_pairwise h9⟩, ?_, ?_, ?_⟩
  · rw [sentiment_fallback_iff]
    exact probeZtPool_eq_none_iff o (_recent_trade_dates today)
  · intro h
    have heq := sentiment_fallback_of_all_empty o today h
    rw [heq]
    refine ⟨rfl, rfl, rfl, rfl, ?_, rfl⟩
    show pyRound 0.21 4 = 0.21
    apply Rat.ext <;> with_unfolding_all decide
  · intro d rs hp
    obtain ⟨hs, hdate, hlu⟩ := sentiment_live_of_probe o today d rs hp
    obtain ⟨hne, hza, hmem, hrest⟩ :=
      probe_some_first o (_recent_trade_dates today) d rs hp (recent_dates_pairwise h9)
    exact ⟨hs, hdate, hlu, hne, hza, hmem, hrest⟩

/-- C5 witness: with every upstream call failing and today = day 14, the
probe finds nothing and the sentiment payload is the static fallback. -/
theorem C5_witness :
    9 ≤ (14 : ℕ)
    ∧ get_market_sentiment true emptyOracle 14 = _fallback_market_sentiment 14
    ∧ (get_market_sentiment true emptyOracle 14).data_source = "fallback" := by
  refine ⟨by norm_num, ?_, ?_⟩
  · exact ((C5_probe_first_nonempty emptyOracle 14 (by norm_num)).2.2.1
      (fun d _ => Or.inl rfl)).1
  · exact ((C5_probe_first_nonempty emptyOracle 14 (by norm_num)).2.2.1
      (fun d _ => Or.inl rfl)).2.2.2.2.2

set_option maxHeartbeats 1000000 in
/-- C6: in the scanner's per-instrument deep filter, a candidate whose
history fetch fails, or returns fewer than 5 rows, is dropped entirely
(the filter yields `none`, never a down-scored candidate); a surviving
candidate has at least 5 history rows, a 3-day upward trailing-close
trend, and a computed volume ratio equal to the latest day's volume
divided by the mean volume of the up-to-5 preceding days, strictly
greater than 1.5. -/
theorem C6_deep_filter_drops (o : MarketOracle) (allowed : Option (List String)) (row : Row) :
    (o.hist (_str row ["代码", "股票代码"] "") = none → deepFilterRow o allowed row = none)
    ∧ (∀ records, o.hist (_str row ["代码", "股票代码"] "") = some records →
        records.length < 5 → deepFilterRow o allowed row = none)
    ∧ (∀ c records, deepFilterRow o allowed row = some c →
        o.hist (_str row ["代码", "股票代码"] "") = some records →
        5 ≤ records.length
        ∧ trend_up (records.map (fun x => _num x ["收盘"] 0)) 3 = true
        ∧ (takeLast 5 (records.map (fun x => _num x ["成交量"] 0)).dropLast).sum
            / (max (takeLast 5 (records.map (fun x => _num x ["成交量"] 0)).dropLast).length 1 : ℚ)
            ≠ 0
        ∧ c.volume_ratio
            = ((last? (records.map (fun x => _num x ["成交量"] 0))).getD 0)
              / ((takeLast 5 (records.map (fun x => _num x ["成交量"] 0)).dropLast).sum
                / (max (takeLast 5 (records.map (fun x => _num x ["成交量"] 0)).dropLast).length 1 : ℚ))
        ∧ 1.5 < c.volume_ratio) := by
  refine ⟨?_, ?_, ?_⟩
  · intro hn
    unfold deepFilterRow
    dsimp only
    split_ifs <;> try rfl
    rw [hn]
  · intro records hr hlen
    unfold deepFilterRow
    dsimp only
    split_ifs <;> try rfl
    rw [hr]
    dsimp only
    rw [if_pos hlen]
  · intro c records hc hr
    unfold deepFilterRow at hc
    dsimp only at hc
    rw [hr] at hc
    dsimp only at hc
    rcases ite_eq_iff.mp hc with ⟨h1, hx⟩ | ⟨h1, hc⟩
    · cases hx
    rcases ite_eq_iff.mp hc with ⟨h2, hx⟩ | ⟨h2, hc⟩
    · cases hx
    rcases ite_eq_iff.mp hc with ⟨h3, hx⟩ | ⟨h3, hc⟩
    · cases hx
    rcases ite_eq_iff.mp hc with ⟨h5, hx⟩ | ⟨h5, hc⟩
    · cases hx
    rcases ite_eq_iff.mp hc with ⟨htr, hx⟩ | ⟨htr, hc⟩
    · cases hx
    rcases ite_eq_iff.mp hc with ⟨hvr, hx⟩ | ⟨hvr, hc⟩
    · cases hx
    rcases ite_eq_iff.mp hc with ⟨hbear, hx⟩ | ⟨hbear, hc⟩
    · cases hx
    cases hc
    refine ⟨by omega, by simpa using htr, ?_, ?_, ?_⟩
    · intro hb0
      rw [volume_ratio, if_pos hb0] at hvr
      exact hvr (by norm_num)
    · show volume_ratio _ _ = _
      rw [volume_ratio, if_neg ?_]
      intro hb0
      rw [volume_ratio, if_pos hb0] at hvr
      exact hvr (by norm_num)
    · exact not_le.mp hvr

set_option maxRecDepth 100000 in
/-- C6 witness: the concrete 5-row history `c6Hist` survives the deep
filter with an exact volume ratio of 4 = 10 / ((1+2+3+4)/4). -/
theorem C6_witness :
    5 ≤ c6Hist.length
    ∧ trend_up (c6Hist.map (fun x => _num x ["收盘"] 0)) 3 = true
    ∧ (takeLast 5 (c6Hist.map (fun x => _num x ["成交量"] 0)).dropLast).sum
        / (max (takeLast 5 (c6Hist.map (fun x => _num x ["成交量"] 0)).dropLast).length 1 : ℚ)
        ≠ 0
    ∧ c6Cand.volume_ratio
        = ((last? (c6Hist.map (fun x => _num x ["成交量"] 0))).getD 0)
          / ((takeLast 5 (c6Hist.map (fun x => _num x ["成交量"] 0)).dropLast).sum
            / (max (takeLast 5 (c6Hist.map (fun x => _num x ["成交量"] 0)).dropLast).length 1 : ℚ))
    ∧ 1.5 < c6Cand.volume_ratio :=
  (C6_deep_filter_drops c6Oracle none c6Row).2.2 c6Cand c6Hist
    (by with_unfolding_all decide) rfl

/-- C7: with the runtime present, a non-empty northbound series, and no
symbol, `analyze_capital_flow` computes main_flow as northbound_net × 0.55
and tiers strength_rank categorically (5 at ≥ 3·10⁸, 12 at ≥ 1.5·10⁸, 30
at ≥ 0, else 70); a northbound_net of 10⁹ therefore reports
main_flow 550,000,000 with strength_rank 5. -/
theorem C7_market_wide_main_flow (o : MarketOracle)
    (hn : _load_northbound_series o ≠ []) :
    (analyze_capital_flow true o none).main_flow
      = pyInt (((last? (_load_northbound_series o)).getD 0) * 0.55)
    ∧ (analyze_capital_flow true o none).northbound_net
      = pyInt ((last? (_load_northbound_series o)).getD 0)
    ∧ (analyze_capital_flow true o none).strength_rank
      = strengthRankOf (((last? (_load_northbound_series o)).getD 0) * 0.55)
    ∧ (∀ m : ℚ, (300000000 ≤ m → strengthRankOf m = 5)
        ∧ (150000000 ≤ m → m < 300000000 → strengthRankOf m = 12)
        ∧ (0 ≤ m → m < 150000000 → strengthRankOf m = 30)
        ∧ (m < 0 → strengthRankOf m = 70))
    ∧ ((last? (_load_northbound_series o)).getD 0 = 1000000000 →
        (analyze_capital_flow true o none).main_flow = 550000000
        ∧ (analyze_capital_flow true o none).strength_rank = 5) := by
  have hne : (_load_northbound_series o).isEmpty = false := by
    rw [List.isEmpty_eq_false]
    exact hn
  have hmain : (analyze_capital_flow true o none).main_flow
      = pyInt (((last? (_load_northbound_series o)).getD 0) * 0.55) := by
    unfold analyze_capital_flow
    dsimp only
    rw [hne]
    rfl
  have hnn : (analyze_capital_flow true o none).northbound_net
      = pyInt ((last? (_load_northbound_series o)).getD 0) := by
    unfold analyze_capital_flow
    dsimp only
    rw [hne]
    rfl
  have hrank : (analyze_capital_flow true o none).strength_rank
      = strengthRankOf (((last? (_load_northbound_series o)).getD 0) * 0.55) := by
    unfold analyze_capital_flow
    dsimp only
    rw [hne]
    rfl
  have htier : ∀ m : ℚ, (300000000 ≤ m → strengthRankOf m = 5)
      ∧ (150000000 ≤ m → m < 300000000 → strengthRankOf m = 12)
      ∧ (0 ≤ m → m < 150000000 → strengthRankOf m = 30)
      ∧ (m < 0 → strengthRankOf m = 70) := by
    intro m
    unfold strengthRankOf
    refine ⟨fun h1 => ?_, fun h1 h2 => ?_, fun h1 h2 => ?_, fun h1 => ?_⟩
    · rw [if_pos h1]
    · rw [if_neg (by linarith), if_pos h1]
    · rw [if_neg (by linarith), if_neg (by linarith), if_pos h1]
    · rw [if_neg (by linarith), if_neg (by linarith), if_neg (by linarith)]
  refine ⟨hmain, hnn, hrank, htier, ?_⟩
  intro h9
  constructor
  · rw [hmain, h9]
    have : (1000000000 : ℚ) * 0.55 = ((550000000 : ℤ) : ℚ) := by norm_num
    rw [this, pyInt_intCast]
  · rw [hrank, h9]
    have h1 : (300000000 : ℚ) ≤ 1000000000 * 0.55 := by norm_num
    exact (htier _).1 h1

set_option maxRecDepth 100000 in
/-- C7 witness: the oracle whose northbound endpoint reports one 10⁹ point
yields main_flow 550,000,000 and strength_rank 5, market-wide. -/
theorem C7_witness :
    (analyze_capital_flow true c7Oracle none).main_flow = 550000000
    ∧ (analyze_capital_flow true c7Oracle none).strength_rank = 5 :=
  (C7_market_wide_main_flow c7Oracle (by with_unfolding_all decide)).2.2.2.2
    (by apply Rat.ext <;> with_unfolding_all decide)

theorem scan_fallback_len (sectors : Option (List String)) (top_n : ℕ) :
    (_fallback_scan_strong_stocks sectors top_n).length ≤ top_n := by
  unfold _fallback_scan_strong_stocks
  match sectors with
  | some (s :: ss) =>
    dsimp only
    split <;> exact List.length_take_le _ _
  | some [] => exact List.length_take_le _ _
  | none => exact List.length_take_le _ _

theorem scan_fallback_ranks (sectors : Option (List String)) (top_n : ℕ) :
    ((_fallback_scan_strong_stocks sectors top_n).map
      (fun c => c.strength_rank)).Sublist [1, 2, 3] := by
  have key : ∀ (l : List Candidate),
      (l.map (fun c => c.strength_rank)).Sublist [1, 2, 3] →
      ((l.take top_n).map (fun c => c.strength_rank)).Sublist [1, 2, 3] :=
    fun l h => ((List.take_sublist top_n l).map _).trans h
  unfold _fallback_scan_strong_stocks
  match sectors with
  | some (s :: ss) =>
    dsimp only
    split
    · exact key _ (List.Sublist.refl _)
    · exact key _ ((List.filter_sublist _).map _)
  | some [] => exact key _ (List.Sublist.refl _)
  | none => exact key _ (List.Sublist.refl _)

/-- C8 counterexample: on the fallback path with the sector filter
["Semiconductor"], the scanner returns one candidate whose strength_rank is
2 — its pre-assigned rank in the static list — so the ranks are not the
dense 1..k sequence the claim asserts for the fallback path. -/
theorem C8_counterexample :
    (scan_strong_stocks false emptyOracle (some ["Semiconductor"]) 10).length = 1
    ∧ (scan_strong_stocks false emptyOracle (some ["Semiconductor"]) 10).map
        (fun c => c.strength_rank) = [2]
    ∧ (scan_strong_stocks false emptyOracle (some ["Semiconductor"]) 10).map
        (fun c => c.strength_rank)
      ≠ List.range' 1 (scan_strong_stocks false emptyOracle (some ["Semiconductor"]) 10).length := by
  refine ⟨rfl, rfl, ?_⟩
  intro h
  have h2 : ([2] : List ℕ) = [1] := h
  cases h2

/-- C8 amended: the scanner always returns at most top_n candidates; on the
live path (runtime present, non-empty spot snapshot) the strength_rank
values are dense 1..k with no gaps; on the static fallback path the three
static candidates keep their pre-assigned ranks 1, 2, 3, so the returned
rank list is a sublist of [1, 2, 3] (dense only when no sector filter
drops a prefix). -/
theorem C8_amended_rank_assignment (rt : Bool) (o : MarketOracle)
    (sectors : Option (List String)) (top_n : ℕ) :
    (scan_strong_stocks rt o sectors top_n).length ≤ top_n
    ∧ (∀ rows, rt = true → o.spot = some rows → rows ≠ [] →
        (scan_strong_stocks rt o sectors top_n).map (fun c => c.strength_rank)
          = List.range' 1 (scan_strong_stocks rt o sectors top_n).length)
    ∧ ((_fallback_scan_strong_stocks sectors top_n).map
        (fun c => c.strength_rank)).Sublist [1, 2, 3] := by
  refine ⟨?_, ?_, scan_fallback_ranks sectors top_n⟩
  · unfold scan_strong_stocks
    split
    · exact scan_fallback_len sectors top_n
    · split
      · exact scan_fallback_len sectors top_n
      · split
        · exact scan_fallback_len sectors top_n
        · dsimp only
          rw [length_assignRanks]
          exact List.length_take_le _ _
  · intro rows hrt hspot hne
    subst hrt
    have hie : rows.isEmpty = false := List.isEmpty_eq_false.mpr hne
    unfold scan_strong_stocks
    simp only [hspot, Bool.not_true, hie, Bool.false_eq_true, if_false]
    rw [assignRanks_map_rank, length_assignRanks]

/-- C8 witness: on a live spot snapshot holding one qualifying row, the
scanner's returned ranks are exactly the dense sequence starting at 1. -/
theorem C8_witness :
    (scan_strong_stocks true c8Oracle none 10).map (fun c => c.strength_rank)
      = List.range' 1 (scan_strong_stocks true c8Oracle none 10).length :=
  (C8_amended_rank_assignment true c8Oracle none 10).2.1 [c6Row] rfl rfl (by simp)

theorem conf_clamp_strict (s1 s2 k cap : ℚ) (hs10 : 0 ≤ s1) (hs11 : s1 ≤ 100)
    (hs20 : 0 ≤ s2) (hs21 : s2 ≤ 100) (hlt : s1 < s2) (hk : 0 < k) (hkcap : k < cap)
    (hcap : cap ≤ 0.95) :
    (0 ≤ clamp (s1 / 100 * k) 0 cap ∧ clamp (s1 / 100 * k) 0 cap ≤ 0.95)
    ∧ clamp (s1 / 100 * k) 0 cap < clamp (s2 / 100 * k) 0 cap
    ∧ (0 ≤ pyRound (clamp (s1 / 100 * k) 0 cap) 2
        ∧ pyRound (clamp (s1 / 100 * k) 0 cap) 2 ≤ 0.95)
    ∧ pyRound (clamp (s1 / 100 * k) 0 cap) 2 ≤ pyRound (clamp (s2 / 100 * k) 0 cap) 2 := by
  have hb1 : s1 / 100 * k ≤ k := by
    have h1 : s1 / 100 ≤ 1 := by linarith
    nlinarith
  have hb2 : s2 / 100 * k ≤ k := by
    have h1 : s2 / 100 ≤ 1 := by linarith
    nlinarith
  have he1 : clamp (s1 / 100 * k) 0 cap = s1 / 100 * k :=
    clamp_eq_self _ _ _ (by positivity) (by linarith)
  have he2 : clamp (s2 / 100 * k) 0 cap = s2 / 100 * k :=
    clamp_eq_self _ _ _ (by positivity) (by linarith)
  rw [he1, he2]
  have hstrict : s1 / 100 * k < s2 / 100 * k := by
    have h1 : s1 / 100 < s2 / 100 := by linarith
    exact mul_lt_mul_of_pos_right h1 hk
  have hup : s1 / 100 * k ≤ 0.95 := by linarith
  have hround_up : pyRound (s1 / 100 * k) 2 ≤ 0.95 := by
    have h95 : s1 / 100 * k * 10 ^ 2 ≤ ((95 : ℤ) : ℚ) := by push_cast; nlinarith
    calc pyRound (s1 / 100 * k) 2 ≤ ((95 : ℤ) : ℚ) / 10 ^ 2 := pyRound_le_of_mul_le h95
      _ = 0.95 := by norm_num
  refine ⟨⟨by positivity, hup⟩, hstrict, ⟨pyRound_nonneg 2 (by positivity), hround_up⟩, ?_⟩
  exact pyRound_mono 2 (le_of_lt hstrict)

/-- C9 amended: the engine's reported confidence is the 2-decimal rounding
of the decision confidence; within each tier the pre-rounding confidence
lies in [0, 0.95] and is strictly increasing in the composite, while the
reported (rounded) confidence lies in [0, 0.95] and is only non-decreasing
— rounding can report equal confidences for distinct composites. -/
theorem C9_amended_confidence (rt : Bool) (o : MarketOracle) (today : ℕ) (mf : Bool)
    (s1 s2 : ℚ) (h10 : 0 ≤ s1) (h11 : s1 ≤ 100) (h20 : 0 ≤ s2) (h21 : s2 ≤ 100)
    (hsame : (decisionOf s1 mf).signal = (decisionOf s2 mf).signal) (hlt : s1 < s2) :
    ((short_term_signal_engine rt o today mf).confidence
      = pyRound (decisionOf (short_term_signal_engine rt o today mf).score mf).confidence 2)
    ∧ (0 ≤ (decisionOf s1 mf).confidence ∧ (decisionOf s1 mf).confidence ≤ 0.95)
    ∧ (0 ≤ pyRound ((decisionOf s1 mf).confidence) 2
        ∧ pyRound ((decisionOf s1 mf).confidence) 2 ≤ 0.95)
    ∧ (decisionOf s1 mf).confidence < (decisionOf s2 mf).confidence
    ∧ pyRound ((decisionOf s1 mf).confidence) 2 ≤ pyRound ((decisionOf s2 mf).confidence) 2 := by
  refine ⟨(engine_decision_link rt o today mf).2.2, ?_⟩
  cases mf with
  | false =>
    rw [(decision_cases s1 false).2.2 (Or.inl rfl), (decision_cases s2 false).2.2 (Or.inl rfl)]
    dsimp only
    obtain ⟨hA, hB, hC, hD⟩ := conf_clamp_strict s1 s2 0.6 0.7 h10 h11 h20 h21 hlt
      (by norm_num) (by norm_num) (by norm_num)
    exact ⟨hA, hC, hB, hD⟩
  | true =>
    by_cases h75a : 75 ≤ s1 <;> by_cases h75b : 75 ≤ s2
    · rw [(decision_cases s1 true).1 ⟨h75a, rfl⟩, (decision_cases s2 true).1 ⟨h75b, rfl⟩]
      dsimp only
      obtain ⟨hA, hB, hC, hD⟩ := conf_clamp_strict s1 s2 0.9 0.95 h10 h11 h20 h21 hlt
        (by norm_num) (by norm_num) (by norm_num)
      exact ⟨hA, hC, hB, hD⟩
    · exact absurd (lt_of_lt_of_le hlt (le_of_not_le h75b)) (by simp; linarith)
    · by_cases h60a : 60 ≤ s1
      · rw [(decision_cases s1 true).2.1 h75a ⟨h60a, rfl⟩,
          (decision_cases s2 true).1 ⟨h75b, rfl⟩] at hsame
        simp at hsame
      · rw [(decision_cases s1 true).2.2 (Or.inr (not_le.mp h60a)),
          (decision_cases s2 true).1 ⟨h75b, rfl⟩] at hsame
        simp at hsame
    · by_cases h60a : 60 ≤ s1 <;> by_cases h60b : 60 ≤ s2
      · rw [(decision_cases s1 true).2.1 h75a ⟨h60a, rfl⟩,
          (decision_cases s2 true).2.1 h75b ⟨h60b, rfl⟩]
        dsimp only
        obtain ⟨hA, hB, hC, hD⟩ := conf_clamp_strict s1 s2 0.75 0.85 h10 h11 h20 h21 hlt
          (by norm_num) (by norm_num) (by norm_num)
        exact ⟨hA, hC, hB, hD⟩
      · exact absurd (lt_of_lt_of_le hlt (le_of_not_le h60b)) (by simp; linarith)
      · rw [(decision_cases s1 true).2.2 (Or.inr (not_le.mp h60a)),
          (decision_cases s2 true).2.1 h75b ⟨h60b, rfl⟩] at hsame
        simp at hsame
      · rw [(decision_cases s1 true).2.2 (Or.inr (not_le.mp h60a)),
          (decision_cases s2 true).2.2 (Or.inr (not_le.mp h60b))]
        dsimp only
        obtain ⟨hA, hB, hC, hD⟩ := conf_clamp_strict s1 s2 0.6 0.7 h10 h11 h20 h21 hlt
          (by norm_num) (by norm_num) (by norm_num)
        exact ⟨hA, hC, hB, hD⟩

set_option maxRecDepth 200000 in
/-- C9 counterexample: two full engine runs in the SHORT_BUY tier with
composites 80.01 < 80.02 report the same confidence 0.72 — the reported
confidence is rounded to 2 decimals and is therefore not strictly
increasing in the composite within a tier. -/
theorem C9_counterexample :
    (short_term_signal_engine true (mkCexOracle (1508250000 / 7)) 0 true).signal = "SHORT_BUY"
    ∧ (short_term_signal_engine true (mkCexOracle (1509750000 / 7)) 0 true).signal = "SHORT_BUY"
    ∧ (short_term_signal_engine true (mkCexOracle (1508250000 / 7)) 0 true).score
      < (short_term_signal_engine true (mkCexOracle (1509750000 / 7)) 0 true).score
    ∧ (short_term_signal_engine true (mkCexOracle (1508250000 / 7)) 0 true).confidence
      = (short_term_signal_engine true (mkCexOracle (1509750000 / 7)) 0 true).confidence
    ∧ ¬ (short_term_signal_engine true (mkCexOracle (1508250000 / 7)) 0 true).confidence
      < (short_term_signal_engine true (mkCexOracle (1509750000 / 7)) 0 true).confidence := by
  refine ⟨?_, ?_, ?_, ?_, ?_⟩ <;> with_unfolding_all decide

set_option maxRecDepth 200000 in
/-- C9 witness: two WATCHLIST-tier composites 60 < 70 on the all-failing
oracle world instantiate the amended monotonicity statement. -/
theorem C9_witness :
    (0 ≤ (decisionOf 60 true).confidence ∧ (decisionOf 60 true).confidence ≤ 0.95)
    ∧ (0 ≤ pyRound ((decisionOf 60 true).confidence) 2
        ∧ pyRound ((decisionOf 60 true).confidence) 2 ≤ 0.95)
    ∧ (decisionOf 60 true).confidence < (decisionOf 70 true).confidence
    ∧ pyRound ((decisionOf 60 true).confidence) 2 ≤ pyRound ((decisionOf 70 true).confidence) 2 :=
  (C9_amended_confidence false emptyOracle 0 true 60 70 (by norm_num) (by norm_num)
    (by norm_num) (by norm_num) (by with_unfolding_all decide) (by norm_num)).2

theorem findSome?_match_zero {l : List String} {f : String → Option ℚ}
    (h : ∀ x ∈ l, f x = none) :
    (match l.findSome? f with | some v => v | none => 0) = (0 : ℚ) := by
  rw [List.findSome?_eq_none_iff.mpr h]

/-- C10: with a symbol given, the northbound series loading, the per-stock
fund-flow history failing or returning no rows, and every ranked-snapshot
window failing or containing no row matching the symbol, main_flow degrades
silently to 0, strength_rank becomes 30, and data_source still reads
"akshare-live" — the provenance tag does not reflect the per-field
degradation. -/
theorem C10_silent_symbol_degradation (o : MarketOracle) (s : String) (hs : s ≠ "")
    (hn : _load_northbound_series o ≠ [])
    (hflow : o.indivFlow s = none ∨ o.indivFlow s = some [])
    (hrank : ∀ ind ∈ (["今日", "5日", "10日"] : List String),
      o.indivRank ind = none ∨ ∀ row ∈ (o.indivRank ind).getD [], rankRowCode row ≠ s) :
    _load_symbol_main_flow o s = 0
    ∧ (analyze_capital_flow true o (some s)).main_flow = 0
    ∧ (analyze_capital_flow true o (some s)).strength_rank = 30
    ∧ (analyze_capital_flow true o (some s)).data_source = "akshare-live" := by
  have hinner : ∀ ind ∈ (["今日", "5日", "10日"] : List String),
      (fun indicator =>
        match o.indivRank indicator with
        | none => none
        | some rows => rows.findSome? (fun row =>
            if rankRowCode row = s then
              some (_num_unit row ["今日主力净流入-净额", "主力净流入-净额", "主力净额"] 0)
            else none)) ind = none := by
    intro ind hind
    dsimp only
    rcases hrank ind hind with h2 | h2
    · rw [h2]
    · cases hri : o.indivRank ind with
      | none => rfl
      | some rows =>
        have h3 : ∀ row ∈ rows, rankRowCode row ≠ s := by
          rw [hri] at h2
          exact h2
        dsimp only
        rw [List.findSome?_eq_none_iff]
        intro row hrow
        rw [if_neg (h3 row hrow)]
  have hload : _load_symbol_main_flow o s = 0 := by
    have hp1eq : (match o.indivFlow s with
        | none => none
        | some records =>
          if records.isEmpty = true then none
          else some (_num_unit ((last? records).getD [])
            ["主力净流入-净额", "主力净额", "主力净流入", "主力净流入净额"] 0)) = (none : Option ℚ) := by
      rcases hflow with h | h <;> rw [h]
      rfl
    unfold _load_symbol_main_flow
    dsimp only
    rw [hp1eq]
    dsimp only
    split
    · exact findSome?_match_zero hinner
    · rfl
  have hne : (_load_northbound_series o).isEmpty = false := by
    rw [List.isEmpty_eq_false]
    exact hn
  have hmain : (analyze_capital_flow true o (some s)).main_flow = 0 := by
    unfold analyze_capital_flow
    simp only [hne, Bool.not_true, Bool.false_eq_true, if_false]
    rw [if_neg hs, hload]
    show pyInt 0 = 0
    have h0 : ((0 : ℤ) : ℚ) = (0 : ℚ) := by norm_num
    rw [← h0, pyInt_intCast]
  have hrank30 : (analyze_capital_flow true o (some s)).strength_rank = 30 := by
    unfold analyze_capital_flow
    simp only [hne, Bool.not_true, Bool.false_eq_true, if_false]
    rw [if_neg hs, hload]
    show strengthRankOf 0 = 30
    unfold strengthRankOf
    norm_num
  have hsource : (analyze_capital_flow true o (some s)).data_source = "akshare-live" := by
    unfold analyze_capital_flow
    simp only [hne, Bool.not_true, Bool.false_eq_true, if_false]
  exact ⟨hload, hmain, hrank30, hsource⟩

set_option maxRecDepth 100000 in
/-- C10 witness: on `c10Oracle` with symbol "300001" — fund-flow history
returning zero rows, ranked snapshot holding only code "000001" — the
payload reports main_flow 0, strength_rank 30 and source "akshare-live". -/
theorem C10_witness :
    (analyze_capital_flow true c10Oracle (some "300001")).main_flow = 0
    ∧ (analyze_capital_flow true c10Oracle (some "300001")).strength_rank = 30
    ∧ (analyze_capital_flow true c10Oracle (some "300001")).data_source = "akshare-live" :=
  (C10_silent_symbol_degradation c10Oracle "300001" (by decide)
    (by with_unfolding_all decide) (Or.inr rfl)
    (by intro ind hind; right; intro row hrow; fin_cases hrow; with_unfolding_all decide)).2
